import Mathlib

/-
Verification development for the pg-orm repository.

This file gives a shallow embedding, in Lean 4, of the parts of the
pg-orm Python source that the specified claims are about:

  * the Python value domain used by column values and query parameters
    (src/pg_orm/core/column_type.py value handling),
  * the typed column model (src/pg_orm/core/column.py, Column),
  * the entity model (src/pg_orm/core/sql_model.py, SQLModel),
  * the unit-of-work session (src/pg_orm/core/session.py, DatabaseSession),
  * the model registry (src/pg_orm/core/registry.py, Registry),
  * relationship resolution (src/pg_orm/core/column.py, Relationship),
  * the statement renderer and its parameterization
    (src/pg_orm/core/query.py and src/pg_orm/core/query_clause.py),
  * a small heap model for the aliasing behaviour of ColumnType.clone
    (src/pg_orm/core/column_type.py, clone uses copy.copy).

Python objects that carry mutable state are embedded as immutable Lean
records with explicit state passing: a Python method that mutates its
receiver becomes a Lean function returning the updated record.  Zero-ary
Python callables used as default / on_update producers are embedded by
the (single) value they produce.  Python `None` is embedded as
`Option.none` where a value slot is optional and as the `pynone`
queryable where a literal None flows into the statement renderer.
-/

set_option maxRecDepth 4000

/- ----------------------------------------------------------------- -/
/- Decimal and hexadecimal digit utilities.                          -/
/- These embed Python `str(int)` (used by `f'param{ix}'` parameter
   names and by `primary_str`) and the canonical textual form of a
   UUID (Python `str(uuid.UUID)` / `uuid.UUID(str)`), which pg-orm's
   UUID column type delegates to.                                    -/
/- ----------------------------------------------------------------- -/

/-- Little-endian decimal digits of a natural number, with explicit
fuel so the definition reduces in the kernel. -/
def decDigitsAux : Nat → Nat → List Nat
  | 0, _ => []
  | _ + 1, 0 => []
  | fuel + 1, n + 1 => ((n + 1) % 10) :: decDigitsAux fuel ((n + 1) / 10)

/-- Little-endian decimal digits of a natural number. -/
def decDigits (n : Nat) : List Nat := decDigitsAux n n

/-- Value of a little-endian decimal digit list. -/
def ofDecDigits (l : List Nat) : Nat := l.foldr (fun d a => d + 10 * a) 0

/-- Digit (0..15) to its lowercase hexadecimal character. -/
def digitChar (d : Nat) : Char :=
  if d = 0 then '0' else if d = 1 then '1' else if d = 2 then '2'
  else if d = 3 then '3' else if d = 4 then '4' else if d = 5 then '5'
  else if d = 6 then '6' else if d = 7 then '7' else if d = 8 then '8'
  else if d = 9 then '9' else if d = 10 then 'a' else if d = 11 then 'b'
  else if d = 12 then 'c' else if d = 13 then 'd' else if d = 14 then 'e'
  else 'f'

/-- Inverse of `digitChar` on hexadecimal characters. -/
def charToDigit (c : Char) : Option Nat :=
  if c = '0' then some 0 else if c = '1' then some 1 else if c = '2' then some 2
  else if c = '3' then some 3 else if c = '4' then some 4 else if c = '5' then some 5
  else if c = '6' then some 6 else if c = '7' then some 7 else if c = '8' then some 8
  else if c = '9' then some 9 else if c = 'a' then some 10 else if c = 'b' then some 11
  else if c = 'c' then some 12 else if c = 'd' then some 13 else if c = 'e' then some 14
  else if c = 'f' then some 15 else none

/-- Python `str(n)` for a natural number. -/
def natStr (n : Nat) : String :=
  if n = 0 then "0" else String.mk ((decDigits n).reverse.map digitChar)

/-- Python `str(i)` for an integer. -/
def intStr (i : Int) : String :=
  if i < 0 then "-" ++ natStr i.natAbs else natStr i.natAbs

/- ----------------------------------------------------------------- -/
/- The Python value domain.                                          -/
/- ----------------------------------------------------------------- -/

/-- A primitive Python value, used as the underlying value of an enum
member (`member.value`). -/
inductive PyPrim
  | pint (n : Int)
  | pstr (s : String)
  | pbool (b : Bool)
deriving DecidableEq, Repr

/-- A (non-None) Python value as it appears in column slots and query
parameters.  Floats are embedded by an opaque code that is never
interpreted arithmetically (the source only passes them through);
dates, datetimes and UUIDs are embedded by their components.  A UUID is
embedded by its 32 hexadecimal digits (big-endian), which determine the
`uuid.UUID` object uniquely.  Python `None` is `Option.none` of this
type. -/
inductive PyVal
  | vint (n : Int)
  | vstr (s : String)
  | vbool (b : Bool)
  | vfloat (code : Nat)
  | vdate (y m d : Nat)
  | vdatetime (ticks : Nat)
  | vuuid (digits : List Nat)
  | vmember (ename mname : String) (payload : PyPrim)
deriving DecidableEq, Repr

/-- The enum-member payload as a plain value. -/
def PyPrim.toVal : PyPrim → PyVal
  | .pint n => .vint n
  | .pstr s => .vstr s
  | .pbool b => .vbool b

/-- Python `==` on embedded values.  Structural, except that Python
compares `bool` and `int` numerically (`True == 1`).  Cross-type
numeric equalities involving floats are not modelled (no claim path
compares a float to an int); enum members compare by identity, i.e. by
enum name and member name. -/
def pyEq : PyVal → PyVal → Bool
  | .vint a, .vint b => a == b
  | .vstr a, .vstr b => a == b
  | .vbool a, .vbool b => a == b
  | .vint a, .vbool b => a == (if b then (1 : Int) else 0)
  | .vbool a, .vint b => (if a then (1 : Int) else 0) == b
  | .vfloat a, .vfloat b => a == b
  | .vdate y1 m1 d1, .vdate y2 m2 d2 => y1 == y2 && m1 == m2 && d1 == d2
  | .vdatetime a, .vdatetime b => a == b
  | .vuuid a, .vuuid b => a == b
  | .vmember e1 n1 _, .vmember e2 n2 _ => e1 == e2 && n1 == n2
  | _, _ => false

/-- Python `==` lifted to optional values (`None == None` is true,
`None == v` is false for any of our values). -/
def pyEqOpt : Option PyVal → Option PyVal → Bool
  | none, none => true
  | some a, some b => pyEq a b
  | _, _ => false

/-- Python truthiness of an embedded value.  Zero ints, empty strings,
`False` and zero floats are falsy; dates, datetimes, UUIDs and enum
members are always truthy (our enum members have no __bool__). -/
def pyTruthy : PyVal → Bool
  | .vint n => n != 0
  | .vstr s => s ≠ ""
  | .vbool b => b
  | .vfloat code => code != 0
  | .vdate _ _ _ => true
  | .vdatetime _ => true
  | .vuuid _ => true
  | .vmember _ _ _ => true

/-- Python truthiness of an optional value (`None` is falsy). -/
def pyTruthyOpt : Option PyVal → Bool
  | none => false
  | some v => pyTruthy v

/-- Left-pad a natural number's decimal form with zeros to a width
(used by Python's date formatting). -/
def padNat (width n : Nat) : String :=
  let s := natStr n
  String.mk (List.replicate (width - s.length) '0') ++ s

/-- Insert the canonical 8-4-4-4-12 dashes into a 32-character UUID
digit string. -/
def uuidDashes (cs : List Char) : List Char :=
  cs.take 8 ++ '-' :: (cs.drop 8).take 4 ++ '-' :: (cs.drop 12).take 4
    ++ '-' :: (cs.drop 16).take 4 ++ '-' :: cs.drop 20

/-- Python `str(uuid.UUID)`: the 32 hex digits in canonical dashed
form. -/
def uuidStr (digits : List Nat) : String :=
  String.mk (uuidDashes (digits.map digitChar))

/-- Python `uuid.UUID(s)`: strip dashes, require 32 hexadecimal
digits.  (The urn/brace forms accepted by the stdlib are not produced
by this ORM and are not modelled.) -/
def uuidParse (s : String) : Option (List Nat) :=
  let cs := s.data.filter (fun c => c ≠ '-')
  if cs.length = 32 then
    cs.foldr (fun c acc => acc.bind (fun ds => (charToDigit c).map (fun d => d :: ds)))
      (some [])
  else none

/-- Python `str(v)` on embedded values.  `str` of a float or datetime
is embedded by an opaque tag (the claims never inspect those strings);
enum members print as `EnumName.MEMBER` as in Python 3.11+. -/
def pyStr : PyVal → String
  | .vint n => intStr n
  | .vstr s => s
  | .vbool b => if b then "True" else "False"
  | .vfloat code => "float:" ++ natStr code
  | .vdate y m d => padNat 4 y ++ "-" ++ padNat 2 m ++ "-" ++ padNat 2 d
  | .vdatetime t => "datetime:" ++ natStr t
  | .vuuid ds => uuidStr ds
  | .vmember e n _ => e ++ "." ++ n

/-- Python `str(v)` where `v` may be `None` (`str(None) = "None"`,
the behaviour `SQLModel.primary_str` relies on). -/
def pyStrOpt : Option PyVal → String
  | none => "None"
  | some v => pyStr v

/- ----------------------------------------------------------------- -/
/- Column types (src/pg_orm/core/column_type.py).                    -/
/- ----------------------------------------------------------------- -/

/-- A scalar column type of the ORM.  `tEnum` carries the referenced
Python Enum class: its name and its members as (member name, underlying
value) pairs (Python guarantees one entry per canonical member). -/
inductive CType
  | tString
  | tInteger
  | tBigInteger
  | tFloat
  | tDate
  | tDateTime
  | tBoolean
  | tUUID
  | tEnum (ename : String) (members : List (String × PyPrim))
deriving DecidableEq, Repr

/-- `ColumnType.parse_to_db` and its overrides: the base class returns
the held value unchanged; `UUID.parse_to_db` returns `str(value)` when
the value is not None; `ENUM.parse_to_db` returns `value.value` of the
held member and None when the slot is falsy (i.e. None, since enum
members are always truthy).  A truthy non-member in an ENUM slot would
raise AttributeError in Python; that garbage-in case is embedded as
None. -/
def ctypeParseToDb : CType → Option PyVal → Option PyVal
  | .tUUID, v =>
    match v with
    | none => none
    | some x => some (.vstr (pyStr x))
  | .tEnum _ _, v =>
    match v with
    | some (.vmember _ _ p) => some p.toVal
    | _ => none
  | _, v => v

/-- Python `type(db_value) == self.python_type` for the base
`ColumnType.parse_from_db` type check. -/
def pyTypeMatches : CType → PyVal → Bool
  | .tString, .vstr _ => true
  | .tInteger, .vint _ => true
  | .tBigInteger, .vint _ => true
  | .tFloat, .vfloat _ => true
  | .tDate, .vdate _ _ _ => true
  | .tDateTime, .vdatetime _ => true
  | .tBoolean, .vbool _ => true
  | .tUUID, .vuuid _ => true
  | _, _ => false

/-- The conversion `self.python_type(db_value)` applied by the base
`ColumnType.parse_from_db` when the wire value's type differs from the
declared native type.  Only the conversions Python actually defines on
the value shapes reachable here are embedded; the remaining exotic
coercions surface as errors. -/
def pyConvert : CType → PyVal → Except String PyVal
  | .tInteger, .vbool b => .ok (.vint (if b then 1 else 0))
  | .tInteger, .vstr s =>
    match s.toInt? with
    | some n => .ok (.vint n)
    | none => .error "ValueError: invalid literal for int()"
  | .tBigInteger, .vbool b => .ok (.vint (if b then 1 else 0))
  | .tBigInteger, .vstr s =>
    match s.toInt? with
    | some n => .ok (.vint n)
    | none => .error "ValueError: invalid literal for int()"
  | .tString, v => .ok (.vstr (pyStr v))
  | .tBoolean, v => .ok (.vbool (pyTruthy v))
  | .tUUID, .vstr s =>
    match uuidParse s with
    | some ds => .ok (.vuuid ds)
    | none => .error "ValueError: badly formed hexadecimal UUID string"
  | _, _ => .error "TypeError: unsupported conversion"

/-- `ColumnType.parse_from_db` and the `ENUM.parse_from_db` override.
The base class stores the wire value, converting it with
`python_type(db_value)` when `type(db_value) != python_type`; the ENUM
override calls `parse_value`, which looks a string up by member value
(`self.python_type(value)`, raising ValueError when no member has that
value), passes any Enum instance through, and raises TypeError on
everything else — including `None`. -/
def ctypeParseFromDb : CType → Option PyVal → Except String (Option PyVal)
  | .tEnum ename ms, dbv =>
    match dbv with
    | some (.vstr s) =>
      match ms.find? (fun m => pyEq m.2.toVal (.vstr s)) with
      | some m => .ok (some (.vmember ename m.1 m.2))
      | none => .error "ValueError: not a valid member"
    | some (.vmember e n p) => .ok (some (.vmember e n p))
    | _ => .error "TypeError: invalid type for column type ENUM"
  | _, none => .ok none
  | t, some v =>
    if pyTypeMatches t v then .ok (some v) else (pyConvert t v).map some

/-- Does the value inhabit the native Python type of the column type?
The native values of a UUID column are well-formed 32-digit UUIDs; the
native values of an ENUM column are its own members. -/
def isNativeVal : CType → PyVal → Bool
  | .tString, .vstr _ => true
  | .tInteger, .vint _ => true
  | .tBigInteger, .vint _ => true
  | .tFloat, .vfloat _ => true
  | .tDate, .vdate _ _ _ => true
  | .tDateTime, .vdatetime _ => true
  | .tBoolean, .vbool _ => true
  | .tUUID, .vuuid ds => ds.length == 32 && ds.all (fun d => d < 16)
  | .tEnum e ms, .vmember e2 n p => e == e2 && (ms.contains (n, p))
  | _, _ => false

/-- Are all underlying member values of an enum type strings?  (Always
true for non-enum types.)  This is the extra condition under which the
wire round trip holds for enums. -/
def enumValuesAreStrings : CType → Bool
  | .tEnum _ ms => ms.all (fun m => match m.2 with | .pstr _ => true | _ => false)
  | _ => true

/-- The underlying member values of an enum type, for the
no-duplicate-values side condition (Python Enum aliases collapse into
one canonical member, so real enum classes satisfy it). -/
def enumMemberVals : CType → List PyPrim
  | .tEnum _ ms => ms.map Prod.snd
  | _ => []

/- ----------------------------------------------------------------- -/
/- The column model (src/pg_orm/core/column.py, class Column).       -/
/- ----------------------------------------------------------------- -/

/-- An entity column (`Column` and its `ForeignKey` / `Relationship`
subclasses, discriminated by the `isFK` / `isRel` flags).  The
`_default` and `on_update` zero-ary producers are embedded by the value
they produce (`none` meaning no producer; a `ForeignKey` stores a
CascadeAction enum member in its `on_update` attribute, which fails the
source's `callable(...)` test, so it is embedded as no producer). -/
structure PCol where
  name : String
  ctype : CType := .tString
  primary_key : Bool := false
  nullable : Bool := true
  auto_increment : Bool := false
  dflt : Option PyVal := none
  on_update : Option PyVal := none
  value : Option PyVal := none
  value_set : Bool := false
  changed : Bool := false
  isFK : Bool := false
  fkRefTable : String := ""
  fkRefColumn : String := ""
  isRel : Bool := false
  relRefTable : String := ""
deriving DecidableEq, Repr

/-- `Column.get_value(apply_default)`: return the held value; when it
is absent, a default producer is configured and `apply_default` holds,
invoke the producer and store its result.  Returns the value together
with the (possibly updated) column. -/
def colGetValue (apply_default : Bool) (c : PCol) : Option PyVal × PCol :=
  match c.value with
  | some v => (some v, c)
  | none =>
    if apply_default then
      match c.dflt with
      | some d => (some d, { c with value := some d })
      | none => (none, c)
    else (none, c)

/-- `Column.set_value(v)`: no-op when `v == get_value(apply_default=False)`
(Python `==`); otherwise store `v` and raise both the explicit-set and
the dirty flag. -/
def colSetValue (v : Option PyVal) (c : PCol) : PCol :=
  if pyEqOpt v (colGetValue false c).1 then c
  else { c with value := v, value_set := true, changed := true }

/-- `Column.parse_to_db(apply_default)`: call `get_value` (to resolve a
default if requested), then delegate to the column type's wire
conversion of the now-held value. -/
def colParseToDb (apply_default : Bool) (c : PCol) : Option PyVal × PCol :=
  let c2 := (colGetValue apply_default c).2
  (ctypeParseToDb c2.ctype c2.value, c2)

/-- `Column.parse_from_db(db_value)`: delegate to the column type's
wire-to-native conversion and store the result without touching the
dirty or explicit-set flags (row hydration). -/
def colParseFromDb (dbv : Option PyVal) (c : PCol) : Except String PCol :=
  (ctypeParseFromDb c.ctype dbv).map (fun v => { c with value := v })

/- ----------------------------------------------------------------- -/
/- The entity model (src/pg_orm/core/sql_model.py, class SQLModel).  -/
/- ----------------------------------------------------------------- -/

/-- An entity instance: its table name (standing for its class — the
registry maps table names to classes bijectively), its cloned column
slots in declaration order (with distinct names, as they are stored in
a name-keyed dict), and the two state flags. -/
structure EModel where
  tableName : String
  columns : List PCol
  exists_in_db : Bool := false
  apply_defaults : Bool := true
deriving DecidableEq, Repr

/-- `SQLModel.inst_primary_columns`: the primary-key columns. -/
def instPrimaryCols (m : EModel) : List PCol :=
  m.columns.filter (fun c => c.primary_key)

/-- `SQLModel.primary_str`: the concatenation of
`str(column.get_value(apply_default=False))` over the primary-key
columns.  Note Python renders an unset value as the string `"None"`. -/
def primaryStr (m : EModel) : String :=
  String.join ((instPrimaryCols m).map (fun c => pyStrOpt (colGetValue false c).1))

/-- `SQLModel.set_defaults`: run `get_value(apply_default=True)` on
every column slot. -/
def setDefaultsM (m : EModel) : EModel :=
  { m with columns := m.columns.map (fun c => (colGetValue true c).2) }

/-- `SQLModel._get_column_updates`: walk the columns; a non-dirty
column with a callable `on_update` producer is collected for
re-evaluation, a dirty column contributes
`(column, parse_to_db(apply_default=False))` to the updates dict.  The
dict is keyed by distinct column objects, embedded here by the
(distinct) column names. -/
def getColumnUpdates (m : EModel) : List (String × Option PyVal) × List PCol :=
  m.columns.foldl
    (fun acc c =>
      if c.changed = false then
        if c.on_update.isSome then (acc.1, acc.2 ++ [c]) else acc
      else (acc.1 ++ [(c.name, (colParseToDb false c).1)], acc.2))
    ([], [])

/-- `SQLModel._set_update_columns`: every collected `on_update` column
contributes `(column, on_update())` — the producer's fresh output. -/
def setUpdateColumns (update_columns : List PCol) : List (String × Option PyVal) :=
  update_columns.map (fun c => (c.name, c.on_update))

/-- `SQLModel._get_update_primary_keys`: one dict entry
`(column, parse_to_db(apply_default=False))` per primary-key column —
including columns whose value is unset (their entry maps to None). -/
def getUpdatePrimaryKeys (m : EModel) : List (String × Option PyVal) :=
  (instPrimaryCols m).map (fun c => (c.name, (colParseToDb false c).1))

/-- The UPDATE statement assembled by `SQLModel.build_update`: its
WHERE equalities on the primary-key columns and its SET assignment
list, in construction order. -/
structure UpdOut where
  wheres : List (String × Option PyVal)
  sets : List (String × Option PyVal)
deriving DecidableEq, Repr

/-- `SQLModel.build_update`: build the primary-key dict and compare its
size with the number of primary-key columns (the source's
"Not all primary keys have been set" guard); return no statement when
the updates dict is empty; otherwise merge the dirty-column updates
with the re-evaluated `on_update` columns (`dict.update` appends the
new keys — the two groups are disjoint) and attach one WHERE equality
per primary-key entry. -/
def buildUpdate (m : EModel) : Option UpdOut :=
  let primary_columns := instPrimaryCols m
  let primary_values := getUpdatePrimaryKeys m
  if primary_values.length ≠ primary_columns.length then none
  else
    let r := getColumnUpdates m
    if r.1.length = 0 then none
    else some { wheres := primary_values, sets := r.1 ++ setUpdateColumns r.2 }

/-- `SQLModel.build_delete`: build the primary-key dict, compare its
size with the number of primary-key columns, and return the DELETE's
WHERE equalities. -/
def buildDelete (m : EModel) : Option (List (String × Option PyVal)) :=
  let primary_columns := instPrimaryCols m
  let primary_values := (instPrimaryCols m).map (fun c => (c.name, (colParseToDb false c).1))
  if primary_values.length ≠ primary_columns.length then none
  else some primary_values

/- ----------------------------------------------------------------- -/
/- Association-list helpers embedding Python dicts.                  -/
/- ----------------------------------------------------------------- -/

/-- Lookup in a Python dict embedded as an association list. -/
def lookupA {κ α : Type} [DecidableEq κ] (l : List (κ × α)) (k : κ) : Option α :=
  match l with
  | [] => none
  | p :: rest => if p.1 = k then some p.2 else lookupA rest k

/-- Python `d[k] = v`: replace the value in place when the key is
present (preserving entry order), append a new entry otherwise. -/
def dictInsert {κ α : Type} [DecidableEq κ] (l : List (κ × α)) (k : κ) (v : α) :
    List (κ × α) :=
  match l with
  | [] => [(k, v)]
  | p :: rest => if p.1 = k then (k, v) :: rest else p :: dictInsert rest k v

/- ----------------------------------------------------------------- -/
/- The session (src/pg_orm/core/session.py, DatabaseSession).        -/
/- ----------------------------------------------------------------- -/

/-- The in-memory unit-of-work state of a `DatabaseSession`: the
identity map, the ordered list of identity-less new objects and the
pending deletions.  The connection/cursor, credentials and autocommit
flag are I/O concerns outside the claims. -/
structure SessionSt where
  known_objects : List (String × EModel) := []
  created_objects : List EModel := []
  deleted_objects : List (String × EModel) := []
deriving DecidableEq, Repr

/-- The empty session state. -/
def emptySession : SessionSt := {}

/-- The mutation `DatabaseSession.add` performs on its argument before
keying it: objects not yet persisted get their defaults materialized. -/
def prepObj (m : EModel) : EModel :=
  if m.exists_in_db then m else setDefaultsM m

/-- `DatabaseSession.add(obj)`: materialize defaults for objects not
yet persisted, then key the object by `primary_str` into the identity
map when that string is truthy (non-empty) and append it to
`created_objects` otherwise.  (The source also touches the lazily
created cursor, an I/O effect outside the embedded state.) -/
def sAdd (s : SessionSt) (m : EModel) : SessionSt :=
  let m2 := prepObj m
  if primaryStr m2 ≠ "" then
    { s with known_objects := dictInsert s.known_objects (primaryStr m2) m2 }
  else
    { s with created_objects := s.created_objects ++ [m2] }

/- ----------------------------------------------------------------- -/
/- The registry (src/pg_orm/core/registry.py, Registry).             -/
/- ----------------------------------------------------------------- -/

/-- The registry's `_models` dict, mapping table names to entity
classes.  Classes are embedded by an identity token (a `Nat`): Python's
`is not` between class objects is token inequality.
(`register_model` also runs `_initialize_model` on a first
registration; that call mutates the class object itself — attribute
names, table back-references — and not the registry map, so it is
outside this embedding.) -/
abbrev RegistryM : Type := List (String × Nat)

/-- `Registry.register_model`: when the name is taken by a different
class, raise (returning the error message and leaving the map
untouched); when it is taken by the same class, accept as a no-op;
otherwise bind the name.  The result pairs the map after the call with
the raised error, if any. -/
def registerSt (r : RegistryM) (model_name : String) (model : Nat) :
    RegistryM × Option String :=
  match lookupA r model_name with
  | some current =>
    if current ≠ model then
      (r, some "ValueError: Multiple models found for model name")
    else (r, none)
  | none => (r ++ [(model_name, model)], none)

/-- A sequence of registrations in which raised conflicts are caught
and skipped by the caller. -/
def registerAll (r : RegistryM) (l : List (String × Nat)) : RegistryM :=
  l.foldl (fun acc p => (registerSt acc p.1 p.2).1) r

/- ----------------------------------------------------------------- -/
/- Relationship resolution                                           -/
/- (src/pg_orm/core/column.py, Relationship._get_from_session).      -/
/- ----------------------------------------------------------------- -/

/-- An entity class, as relationship resolution sees it: its registered
table name and its class-level prototype columns.
`selectable_columns()` clones these prototypes afresh on every call;
cloning copies the held value, so reading a cloned prototype reads the
prototype's value. -/
structure ClassDef where
  name : String
  protoCols : List PCol
deriving DecidableEq, Repr

/-- `SQLModel.selectable_columns()` on the class: every prototype
column that is not a Relationship. -/
def selectableCols (cd : ClassDef) : List PCol :=
  cd.protoCols.filter (fun c => !c.isRel)

/-- The outcome of `Relationship._get_from_session`, with the would-be
database roundtrip reified: `dbQuery` records that a SELECT of the
referenced class filtered on its primary-key column would be issued. -/
inductive RelResult
  | configError (msg : String)
  | resolvedNone
  | sessionHit (obj : EModel)
  | dbQuery (table pkName : String) (refId : PyVal)
deriving DecidableEq, Repr

/-- `Relationship._get_from_session`.  Faithful to the source: the
foreign-key value (`ref_id`) is read from the *class-level* selectable
columns of `self.table_class` — freshly cloned prototypes — not from
the columns of any entity instance (a `Column` holds no reference to
an owning instance).  A falsy `ref_id` resolves to None without
querying; otherwise the session's identity map is scanned for the
first object of the referenced class with a primary-key value equal
(`==`) to `ref_id`; otherwise a SELECT by primary key is issued.  The
source's trailing `if not ref_primary_col` test is dead (a Column
object is always truthy) and the indexing `primary_columns()[0]`
raises IndexError when the referenced class has no primary key. -/
def relGetFromSession (refTableName : String) (tableClass : ClassDef)
    (registry : Option (List (String × ClassDef))) (session : SessionSt) : RelResult :=
  match registry with
  | none => .configError "Table class is not registered"
  | some reg =>
    match lookupA reg refTableName with
    | none => .configError "No table class found for table name"
    | some refCls =>
      match (refCls.protoCols.filter (fun c => c.primary_key)).head? with
      | none => .configError "IndexError: list index out of range"
      | some refPrimaryCol =>
        let fkCol := (selectableCols tableClass).find?
          (fun c => c.isFK && c.fkRefTable == refTableName)
        let refId : Option PyVal := fkCol.bind (fun c => (colGetValue false c).1)
        if pyTruthyOpt refId = false then .resolvedNone
        else
          match refId with
          | none => .resolvedNone
          | some rid =>
            match (session.known_objects.map Prod.snd).find?
                (fun obj => obj.tableName == refCls.name &&
                  (instPrimaryCols obj).any
                    (fun rc => pyEqOpt (colGetValue false rc).1 (some rid))) with
            | some obj => .sessionHit obj
            | none => .dbQuery refCls.name refPrimaryCol.name rid

/- ----------------------------------------------------------------- -/
/- Heap model for value cloning                                      -/
/- (src/pg_orm/core/column_type.py, ColumnType.clone and copy.copy). -/
/- ----------------------------------------------------------------- -/

/-- A Python value as held by a column slot when object identity
matters: either an immutable primitive or a reference to a mutable
container on the heap. -/
inductive HVal
  | hint (n : Int)
  | hstr (s : String)
  | hbool (b : Bool)
  | hnone
  | href (a : Nat)
deriving DecidableEq, Repr

/-- A mutable Python container (a dict or a list), with its immediate
entries. -/
inductive HObj
  | hdict (kvs : List (String × HVal))
  | hlist (items : List HVal)
deriving DecidableEq, Repr

/-- An explicit heap: finitely many allocated containers. -/
abbrev Heap : Type := List (Nat × HObj)

/-- A fresh (unallocated) address: one past the maximum allocated
address. -/
def freshAddr (h : Heap) : Nat :=
  (h.map Prod.fst).foldl max 0 + 1

/-- Replace the container at an address. -/
def heapSet (h : Heap) (a : Nat) (o : HObj) : Heap :=
  h.map (fun p => if p.1 = a then (a, o) else p)

/-- Python `copy.copy(value)` — the call `ColumnType.clone` makes:
primitives are returned as-is; a container is re-allocated at a fresh
address with the *same immediate entries*, so nested references inside
it stay shared between original and copy. -/
def copyShallow (h : Heap) (v : HVal) : HVal × Heap :=
  match v with
  | .href a =>
    match lookupA h a with
    | some o => (.href (freshAddr h), h ++ [(freshAddr h, o)])
    | none => (v, h)
  | _ => (v, h)

/-- The slice of `Column` state relevant to cloning: the held value
plus representative metadata fields which `Column.clone` copies
verbatim. -/
structure HCol where
  name : String
  changed : Bool
  value_set : Bool
  value : HVal
deriving DecidableEq, Repr

/-- `Column.clone` / `ColumnType.clone`: a fresh column whose metadata
fields are copied verbatim and whose held value is `copy.copy` of the
prototype's value. -/
def hcolClone (h : Heap) (c : HCol) : HCol × Heap :=
  let r := copyShallow h c.value
  ({ c with value := r.1 }, r.2)

/-- Python `d[k] = v` on the dict at address `a`. -/
def dictSetKey (h : Heap) (a : Nat) (k : String) (v : HVal) : Heap :=
  match lookupA h a with
  | some (.hdict kvs) => heapSet h a (.hdict (dictInsert kvs k v))
  | _ => h

/-- Python `l.append(v)` on the list at address `a`. -/
def listAppendH (h : Heap) (a : Nat) (v : HVal) : Heap :=
  match lookupA h a with
  | some (.hlist items) => heapSet h a (.hlist (items ++ [v]))
  | _ => h

/-- The fully dereferenced shape of a heap value (what Python `==` on
nested dicts/lists observes), with fuel against reference cycles. -/
inductive PureV
  | pint (n : Int)
  | pstr (s : String)
  | pbool (b : Bool)
  | pnone
  | pdict (kvs : List (String × PureV))
  | plist (items : List PureV)
  | pbad
deriving Repr

/-- Resolve a heap value to its pure shape. -/
def readVal : Nat → Heap → HVal → PureV
  | 0, _, _ => .pbad
  | fuel + 1, h, v =>
    match v with
    | .hint n => .pint n
    | .hstr s => .pstr s
    | .hbool b => .pbool b
    | .hnone => .pnone
    | .href a =>
      match lookupA h a with
      | some (.hdict kvs) => .pdict (kvs.map (fun kv => (kv.1, readVal fuel h kv.2)))
      | some (.hlist items) => .plist (items.map (fun it => readVal fuel h it))
      | none => .pbad

/- ----------------------------------------------------------------- -/
/- The statement renderer                                            -/
/- (src/pg_orm/core/query.py, src/pg_orm/core/query_clause.py).      -/
/- ----------------------------------------------------------------- -/

/-- A psycopg `Composable`: raw SQL text, a (possibly dotted) quoted
identifier, a named placeholder, a literal, or a composition.  The
`lit` node is psycopg's `Literal` — the renderer under scrutiny never
produces it on the WHERE/SET value path, which is the point of the
parameterization claim. -/
inductive Composable
  | sql (s : String)
  | ident (parts : List String)
  | placeholder (pname : String)
  | lit (v : PyVal)
  | composed (parts : List Composable)
deriving Repr

mutual

/-- `Composable.as_string`: raw SQL verbatim, identifiers quoted and
dot-joined, placeholders in `%(name)s` form, literals through a
quoting rule (string literals in single quotes — enough for the
concrete examples; literals never occur on the parameterized path). -/
def renderC : Composable → String
  | .sql s => s
  | .ident parts =>
    String.intercalate "." (parts.map (fun p => "\"" ++ p ++ "\""))
  | .placeholder pname => "%(" ++ pname ++ ")s"
  | .lit v =>
    match v with
    | .vstr s => "'" ++ s ++ "'"
    | w => pyStr w
  | .composed parts => String.join (renderList parts)

/-- Render each part of a composition. -/
def renderList : List Composable → List String
  | [] => []
  | c :: cs => renderC c :: renderList cs

end

/-- `QueryParams`: the parameter dict accumulated while rendering, in
insertion order. -/
abbrev QueryParams : Type := List (String × PyVal)

/-- The keys of the parameter dict. -/
def qkeys (ps : QueryParams) : List String := ps.map Prod.fst

/-- The synthetic name `f'param{ix}'`. -/
def paramName (i : Nat) : String := "param" ++ natStr i

/-- The loop of `QueryParams.next_param_name`: starting at index `i`,
skip names already in `keys`.  The fuel argument bounds the walk; one
more step than there are keys always suffices. -/
def nextIxFrom (ks : List String) : Nat → Nat → Nat
  | 0, i => i
  | fuel + 1, i => if paramName i ∈ ks then nextIxFrom ks fuel (i + 1) else i

/-- `QueryParams.next_param_name`: the first `param{ix}` not already
used as a key. -/
def nextParamName (ps : QueryParams) : String :=
  paramName (nextIxFrom (qkeys ps) ((qkeys ps).length + 1) 0)

/-- `QueryParams.set_param(value)`: bind the next free synthetic name
to the value and return the name. -/
def setParam (ps : QueryParams) (v : PyVal) : String × QueryParams :=
  let n := nextParamName ps
  (n, ps ++ [(n, v)])

/-- An operand as seen by `_transform_queryable` / `Query._sql_str`:
Python `None`, a raw-SQL `Composable`, a `Column` (standing for its
table-qualified name), an entity class, a named `BindParam`, or a
literal value.  (The `_sql_str` branches for `Distinct` and for
expanding a model into its column list render identifiers only and are
outside the claims; an operator operand that is itself a `QueryClause`
recurses into `parse` exactly like a top-level clause and is likewise
omitted.) -/
inductive SqlObj
  | pynone
  | comp (c : Composable)
  | column (table cname : String)
  | modelCls (schema table : String)
  | bindParam (pname : String)
  | lit (v : PyVal)
deriving Repr

/-- `query_clause._transform_queryable`: None renders as the SQL
keyword NULL with no parameter; a raw `Composable` passes through; a
column renders as its full quoted name; a `BindParam` renders as a
placeholder under its own name without touching the dict; anything
else is a literal: it is bound to a fresh synthetic parameter and
rendered as that placeholder.  (The source's `value == type(SQLModel)`
branch compares against the metaclass and is dead for entity classes;
an entity class reaching the fallthrough would be parameterized —
irrelevant to the claims, embedded like `_sql_str` renders classes.) -/
def transformQueryable (x : SqlObj) (ps : QueryParams) : Composable × QueryParams :=
  match x with
  | .pynone => (.sql "NULL", ps)
  | .comp c => (c, ps)
  | .column t n => (.ident [t, n], ps)
  | .modelCls s t => (.composed [.ident [s], .sql ".", .ident [t]], ps)
  | .bindParam n => (.placeholder n, ps)
  | .lit v =>
    let r := setParam ps v
    (.placeholder r.1, r.2)

/-- `Operator.build`: transform both operands and interleave the
operator's SQL token (`SQL('{} {} {}')`). -/
def opBuild (op : String) (l r : SqlObj) (ps : QueryParams) :
    Composable × QueryParams :=
  let lr := transformQueryable l ps
  let rr := transformQueryable r lr.2
  (.composed [lr.1, .sql " ", .sql op, .sql " ", rr.1], rr.2)

/-- A `QueryClause`: its operator (SQL token plus two operands), the
accumulated OR / AND peer clauses and the inversion flag.  A bare
`Operator` in a WHERE list behaves exactly like a clause with empty
peer lists. -/
inductive QClause
  | mk (op : String) (left right : SqlObj)
      (ors : List QClause) (ands : List QClause) (inverted : Bool)

/-- Interleave a separator, as psycopg's `SQL(sep).join`. -/
def joinComps (sep : String) (cs : List Composable) : Composable :=
  .composed (List.intersperse (.sql sep) cs)

/-- Assemble the text of a parsed clause out of its rendered operator
and rendered OR / AND peers: the OR block is parenthesized, the AND
peers are appended, and an inverted clause is wrapped in `NOT (...)`
(the text-assembly half of `QueryClause.parse`). -/
def clauseAssemble (inv orsEmpty andsEmpty : Bool) (opc : Composable)
    (orcs andcs : List Composable) : Composable :=
  let withOrs : Composable :=
    if orsEmpty then opc
    else .composed [.sql "(", opc, .sql " OR ", joinComps " OR " orcs, .sql ")"]
  let withAnds : Composable :=
    if andsEmpty then withOrs
    else .composed [withOrs, .sql " AND ", joinComps " AND " andcs]
  if inv then .composed [.sql "NOT (", withAnds, .sql ")"] else withAnds

mutual

/-- `QueryClause.parse`: build the operator, then the OR peers (inside
parentheses), then the AND peers, then wrap in `NOT (...)` when
inverted.  Parameters are consumed in exactly that order. -/
def parseClause : QClause → QueryParams → Composable × QueryParams
  | .mk op l r ors ands inv, ps =>
    let opr := opBuild op l r ps
    let orRes := parseClauses ors opr.2
    let andRes := parseClauses ands orRes.2
    (clauseAssemble inv ors.isEmpty ands.isEmpty opr.1 orRes.1 andRes.1, andRes.2)

/-- Parse a list of clauses left to right, threading the parameter
dict. -/
def parseClauses : List QClause → QueryParams → List Composable × QueryParams
  | [], ps => ([], ps)
  | q :: qs, ps =>
    let r1 := parseClause q ps
    let r2 := parseClauses qs r1.2
    (r1.1 :: r2.1, r2.2)

end

/-- The literal (non-None) values contained in an operand, in
rendering order. -/
def objLits : SqlObj → List PyVal
  | .lit v => [v]
  | _ => []

mutual

/-- The literal values a clause renders, in parameter-binding order. -/
def clauseLits : QClause → List PyVal
  | .mk _ l r ors ands _ =>
    objLits l ++ objLits r ++ clausesLits ors ++ clausesLits ands

/-- The literal values of a clause list, in order. -/
def clausesLits : List QClause → List PyVal
  | [] => []
  | q :: qs => clauseLits q ++ clausesLits qs

end

/-- Substitute literal values in an operand (leaving columns, raw SQL,
bind params and None untouched). -/
def mapObj (g : PyVal → PyVal) : SqlObj → SqlObj
  | .lit v => .lit (g v)
  | x => x

mutual

/-- Substitute literal values throughout a clause. -/
def mapClause (g : PyVal → PyVal) : QClause → QClause
  | .mk op l r ors ands inv =>
    .mk op (mapObj g l) (mapObj g r) (mapClauses g ors) (mapClauses g ands) inv

/-- Substitute literal values throughout a clause list. -/
def mapClauses (g : PyVal → PyVal) : List QClause → List QClause
  | [] => []
  | q :: qs => mapClause g q :: mapClauses g qs

end

/-- Substitute the values of a parameter dict, keeping its keys. -/
def mapVals (g : PyVal → PyVal) (ps : QueryParams) : QueryParams :=
  ps.map (fun p => (p.1, g p.2))

/-- An element of a query's `_where` list: a `QueryClause` or a raw
`Composable` (a bare `Operator` renders exactly like a clause with no
peers). -/
inductive WherePart
  | wclause (q : QClause)
  | wcomp (c : Composable)

/-- `Query._sql_str` on an operand, with `full_name` flag: like
`_transform_queryable`, except that a column renders as its bare
quoted name unless `full_name` is set. -/
def sqlStrObj (full_name : Bool) (x : SqlObj) (ps : QueryParams) :
    Composable × QueryParams :=
  match x with
  | .pynone => (.sql "NULL", ps)
  | .comp c => (c, ps)
  | .column t n => (if full_name then .ident [t, n] else .ident [n], ps)
  | .modelCls s t => (.composed [.ident [s], .sql ".", .ident [t]], ps)
  | .bindParam n => (.placeholder n, ps)
  | .lit v =>
    let r := setParam ps v
    (.placeholder r.1, r.2)

/-- `Query._sql_str` on a WHERE part: clauses recurse into
`QueryClause.parse` against the shared parameter dict, raw SQL passes
through. -/
def sqlStrW (x : WherePart) (ps : QueryParams) : Composable × QueryParams :=
  match x with
  | .wclause q => parseClause q ps
  | .wcomp c => (c, ps)

/-- Render a list of parts left to right, threading the parameter dict
(the loop inside `Query._build_parts`). -/
def mapState {α : Type} (f : α → QueryParams → Composable × QueryParams) :
    List α → QueryParams → List Composable × QueryParams
  | [], ps => ([], ps)
  | x :: xs, ps =>
    let r1 := f x ps
    let r2 := mapState f xs r1.2
    (r1.1 :: r2.1, r2.2)

/-- `Query._build_where`: nothing for an empty criteria list, otherwise
the parts joined with AND under a WHERE keyword. -/
def buildWhere (w : List WherePart) (ps : QueryParams) :
    Option Composable × QueryParams :=
  match w with
  | [] => (none, ps)
  | x :: xs =>
    let r := mapState sqlStrW (x :: xs) ps
    (some (.composed [.sql "WHERE ", joinComps " AND " r.1]), r.2)

/-- `Update._parse_set`: each assignment renders as
`_sql_str(key, full_name=False) = _sql_str(value, full_name=False)`,
joined with commas behind a SET keyword.  (The source's emptiness
check on the result can never fire: a psycopg `Composed` is always
truthy; accordingly the SET clause is built unconditionally.) -/
def parseSet (sets : List (SqlObj × SqlObj)) (ps : QueryParams) :
    Composable × QueryParams :=
  let r := mapState
    (fun (kv : SqlObj × SqlObj) ps =>
      let kr := sqlStrObj false kv.1 ps
      let vr := sqlStrObj false kv.2 kr.2
      (Composable.composed [kr.1, .sql " = ", vr.1], vr.2))
    sets ps
  (.composed [.sql "SET ", joinComps ", " r.1], r.2)

/-- An UPDATE statement under construction: its target list, its SET
assignments and its WHERE criteria.  UPDATE is the representative
statement for the parameterization claims since it carries both a
WHERE and a SET clause; SELECT/INSERT/DELETE parameterize their
operands through the same `_sql_str` / `_transform_queryable`
machinery.  The (empty) RETURNING list is not modelled. -/
structure UpdateStmt where
  target : List SqlObj
  set_ : List (SqlObj × SqlObj)
  where_ : List WherePart

/-- `Update.parse`: raise when no target is set; otherwise render the
target list, the SET clause, then the WHERE clause against one fresh
parameter dict, and join the parts with spaces, ending the statement
with a semicolon. -/
def updateParse (u : UpdateStmt) : Except String (Composable × QueryParams) :=
  match u.target with
  | [] => .error "ValueError: Update target is not set"
  | _ =>
    let tr := mapState (sqlStrObj false) u.target []
    let sr := parseSet u.set_ tr.2
    let wr := buildWhere u.where_ sr.2
    let parts : List Composable :=
      [Composable.composed [.sql "UPDATE ", joinComps ", " tr.1], sr.1] ++
        (match wr.1 with | some w => [w] | none => [])
    .ok (.composed (List.intersperse (.sql " ") parts ++ [.sql ";"]), wr.2)

/-- The literal values a WHERE part consumes, in order. -/
def wLits : WherePart → List PyVal
  | .wclause q => clauseLits q
  | .wcomp _ => []

/-- All literal values an UPDATE statement parameterizes, in binding
order: target parts, then SET keys/values pairwise, then WHERE
criteria. -/
def updLits (u : UpdateStmt) : List PyVal :=
  (u.target.map objLits).flatten ++
    (u.set_.map (fun kv => objLits kv.1 ++ objLits kv.2)).flatten ++
    (u.where_.map wLits).flatten

/-- Substitute literal values throughout a WHERE part. -/
def mapW (g : PyVal → PyVal) : WherePart → WherePart
  | .wclause q => .wclause (mapClause g q)
  | .wcomp c => .wcomp c

/-- Substitute literal values throughout an UPDATE statement, leaving
columns, raw SQL, bind params and None untouched. -/
def mapUpdate (g : PyVal → PyVal) (u : UpdateStmt) : UpdateStmt :=
  { target := u.target.map (mapObj g)
    set_ := u.set_.map (fun kv => (mapObj g kv.1, mapObj g kv.2))
    where_ := u.where_.map (mapW g) }

/-- The rendered text of a parsed UPDATE (empty on a construction
error). -/
def updateText (u : UpdateStmt) : String :=
  match updateParse u with
  | .ok r => renderC r.1
  | .error _ => ""

/-- The parameter dict of a parsed UPDATE (empty on a construction
error). -/
def updateParams (u : UpdateStmt) : QueryParams :=
  match updateParse u with
  | .ok r => r.2
  | .error _ => []

/-- Is an operand one of the values the parameterization claim calls a
literal — not a Column, not raw SQL, not a named BindParam (and not an
entity class)? -/
def objIsClaimLiteral : SqlObj → Bool
  | .pynone => true
  | .lit _ => true
  | _ => false

/- ----------------------------------------------------------------- -/
/- Concrete instances used by the counterexamples and witnesses.     -/
/- ----------------------------------------------------------------- -/

/-- UPDATE "t" SET "x" = None WHERE "t"."id" = None — a statement whose
WHERE and SET clauses each supply the value `None`, which is neither a
Column, nor raw SQL, nor a BindParam. -/
def u0 : UpdateStmt :=
  { target := [.modelCls "public" "t"]
    set_ := [(.column "t" "x", .pynone)]
    where_ := [.wclause (.mk "=" (.column "t" "id") .pynone [] [] false)] }

/-- UPDATE "t" SET "x" = 'a' WHERE "t"."id" = 'a' AND "t"."y" = 7 — a
statement with three literal operands, two of them identical. -/
def u1 : UpdateStmt :=
  { target := [.modelCls "public" "t"]
    set_ := [(.column "t" "x", .lit (.vstr "a"))]
    where_ := [.wclause (.mk "=" (.column "t" "id") (.lit (.vstr "a"))
      [] [.mk "=" (.column "t" "y") (.lit (.vint 7)) [] [] false] false)] }

/-- A value substitution turning every literal into a SQL-metacharacter
string; the rendered text must not change under it. -/
def gInject : PyVal → PyVal := fun _ => .vstr "x'; DROP TABLE t; --"

/-- An entity with a two-column composite primary key of which only the
first holds a value, and one dirty non-key column — the claim-C3
scenario. -/
def m3 : EModel :=
  { tableName := "t3"
    columns :=
      [ { name := "a", ctype := .tInteger, primary_key := true, value := some (.vint 1) }
      , { name := "b", ctype := .tInteger, primary_key := true }
      , { name := "c", ctype := .tString, value := some (.vstr "x"),
          value_set := true, changed := true } ] }

/-- A freshly constructed entity whose single primary-key column has no
value and no default producer (e.g. a server-generated key) — the
claim-C4 scenario of an identity-less object. -/
def m4 : EModel :=
  { tableName := "t4"
    columns :=
      [ { name := "id", ctype := .tInteger, primary_key := true, auto_increment := true }
      , { name := "label", ctype := .tString, value := some (.vstr "x"),
          value_set := true, changed := true } ] }

/-- A hydrated entity where the single mutated column itself carries an
`on_update` producer (producing 9) but was explicitly set to 5 — the
claim-C5 overlap scenario. -/
def m5 : EModel :=
  { tableName := "t5"
    exists_in_db := true
    apply_defaults := false
    columns :=
      [ { name := "id", ctype := .tInteger, primary_key := true, value := some (.vint 1) }
      , { name := "a", ctype := .tInteger, on_update := some (.vint 9),
          value := some (.vint 5), value_set := true, changed := true } ] }

/-- A hydrated entity with exactly one mutated column and a separate
non-dirty `on_update` column — the claim-C5 witness scenario. -/
def m5w : EModel :=
  { tableName := "t5"
    exists_in_db := true
    apply_defaults := false
    columns :=
      [ { name := "id", ctype := .tInteger, primary_key := true, value := some (.vint 1) }
      , { name := "a", ctype := .tString, value := some (.vstr "new"),
          value_set := true, changed := true }
      , { name := "upd", ctype := .tInteger, on_update := some (.vint 9),
          value := some (.vint 3) }
      , { name := "other", ctype := .tString, value := some (.vstr "keep") } ] }

/-- The referenced (parent) class for the relationship scenario: table
"parent" with a string primary key. -/
def parentCls : ClassDef :=
  { name := "parent"
    protoCols := [ { name := "id", ctype := .tString, primary_key := true } ] }

/-- The referencing (child) class: its class-level ForeignKey prototype
to "parent" exists but — as for every class-level prototype — holds no
value. -/
def childCls : ClassDef :=
  { name := "child"
    protoCols :=
      [ { name := "id", ctype := .tString, primary_key := true }
      , { name := "parent_id", ctype := .tString, isFK := true,
          fkRefTable := "parent", fkRefColumn := "id" }
      , { name := "parent", isRel := true, relRefTable := "parent" } ] }

/-- The registry holding both classes. -/
def relRegistry : List (String × ClassDef) := [("parent", parentCls), ("child", childCls)]

/-- A hydrated parent entity with primary key "p1". -/
def parentObj : EModel :=
  { tableName := "parent"
    exists_in_db := true
    apply_defaults := false
    columns := [ { name := "id", ctype := .tString, primary_key := true,
                   value := some (.vstr "p1") } ] }

/-- A session whose identity map already holds the parent under its
identity string. -/
def sessionWithParent : SessionSt :=
  { known_objects := [("p1", parentObj)] }

/-- A heap holding a list `[1]` at address 1 and a dict with key "a"
referencing that list at address 0: the nested mutable value
`{"a": [1]}`. -/
def h7 : Heap := [(1, .hlist [.hint 1]), (0, .hdict [("a", .href 1)])]

/-- A class-level prototype column holding the dict at address 0. -/
def proto7 : HCol := { name := "flex", changed := false, value_set := false, value := .href 0 }

/-- The heap after cloning `proto7` and then appending 2 — through the
clone — to the nested list reachable as `clone.value["a"]`. -/
def h7after : Heap :=
  listAppendH (hcolClone h7 proto7).2 1 (.hint 2)

/-- The ENUM column type over an enum with a non-string (integer)
member value. -/
def intEnumT : CType := .tEnum "E" [("A", .pint 1)]

/-- The member `E.A` of that enum. -/
def intEnumMember : PyVal := .vmember "E" "A" (.pint 1)

/-- A string-valued enum type, as the repository's own test models use. -/
def strEnumT : CType := .tEnum "TestEnum" [("ABC", .pstr "ABC"), ("DEF", .pstr "DEF")]

/-- A second identity-less entity, of a different table, to exhibit the
collision of unset-key objects in the identity map. -/
def m4b : EModel :=
  { tableName := "u4"
    columns :=
      [ { name := "id", ctype := .tInteger, primary_key := true, auto_increment := true }
      , { name := "other", ctype := .tString, value := some (.vstr "y"),
          value_set := true, changed := true } ] }

/-- A persisted entity with identity "7" and a dirty column holding
"first". -/
def c2a : EModel :=
  { tableName := "t2"
    exists_in_db := true
    apply_defaults := false
    columns :=
      [ { name := "id", ctype := .tInteger, primary_key := true, value := some (.vint 7) }
      , { name := "x", ctype := .tString, value := some (.vstr "first"),
          value_set := true, changed := true } ] }

/-- Another instance with the same identity "7" holding "second". -/
def c2b : EModel :=
  { tableName := "t2"
    exists_in_db := true
    apply_defaults := false
    columns :=
      [ { name := "id", ctype := .tInteger, primary_key := true, value := some (.vint 7) }
      , { name := "x", ctype := .tString, value := some (.vstr "second"),
          value_set := true, changed := true } ] }

/-- An entity whose column "x" has both a default producer (7) and an
`on_update` producer (9) and was never explicitly set, plus a dirty
column "y" — the claim-C10 overlap scenario. -/
def m10 : EModel :=
  { tableName := "t10"
    columns :=
      [ { name := "id", ctype := .tInteger, primary_key := true, value := some (.vint 1) }
      , { name := "y", ctype := .tString, value := some (.vstr "dirty"),
          value_set := true, changed := true }
      , { name := "x", ctype := .tInteger, dflt := some (.vint 7),
          on_update := some (.vint 9) } ] }

/-- State-extension property of a rendering step: the parameter dict
only grows, the appended values are exactly the step's literals in
order, and key distinctness is preserved. -/
def ExtP (inp out : QueryParams) (lits : List PyVal) : Prop :=
  (∃ tl, out = inp ++ tl ∧ tl.map Prod.snd = lits) ∧
    ((qkeys inp).Nodup → (qkeys out).Nodup)

/-- Literal-substitution invariance of a rendering step: substituting
the literal values (in the input and in the already-accumulated dict)
leaves the rendered `Composable` unchanged and substitutes the dict
values pointwise. -/
def InvP (g : PyVal → PyVal) (run runM : QueryParams → Composable × QueryParams) : Prop :=
  ∀ ps, runM (mapVals g ps) = ((run ps).1, mapVals g ((run ps).2))

/-- The "x" column of `m10` on its own: unset value, default producer
yielding 7, `on_update` producer yielding 9. -/
def c10col : PCol :=
  { name := "x", ctype := .tInteger, dflt := some (.vint 7), on_update := some (.vint 9) }

/-- The UPDATE statement `build_update` produces for `m10`. -/
def c10out : UpdOut :=
  { wheres := [("id", some (.vint 1))]
    sets := [("y", some (.vstr "dirty")), ("x", some (.vint 9))] }

/- ----------------------------------------------------------------- -/
/- Theorems.  Helper lemmas first, then one theorem per claim (with  -/
/- witnesses / counterexamples as required).                         -/
/- ----------------------------------------------------------------- -/

theorem ofDec_decAux : ∀ (fuel n : Nat), n ≤ fuel →
    ofDecDigits (decDigitsAux fuel n) = n := by
  intro fuel
  induction fuel with
  | zero =>
    intro n h
    have : n = 0 := by omega
    subst this
    rfl
  | succ f ih =>
    intro n h
    match n with
    | 0 => rfl
    | k + 1 =>
      have hdiv : (k + 1) / 10 ≤ f := by
        have : (k + 1) / 10 < k + 1 := Nat.div_lt_self (by omega) (by omega)
        omega
      show ofDecDigits (((k + 1) % 10) :: decDigitsAux f ((k + 1) / 10)) = k + 1
      have hrec := ih ((k + 1) / 10) hdiv
      show (k + 1) % 10 + 10 * ofDecDigits (decDigitsAux f ((k + 1) / 10)) = k + 1
      rw [hrec]
      omega

theorem ofDec_dec (n : Nat) : ofDecDigits (decDigits n) = n :=
  ofDec_decAux n n (Nat.le_refl n)

theorem decAux_lt : ∀ (fuel n : Nat), ∀ d ∈ decDigitsAux fuel n, d < 10 := by
  intro fuel
  induction fuel with
  | zero => intro n d hd; simp [decDigitsAux] at hd
  | succ f ih =>
    intro n d hd
    match n with
    | 0 => simp [decDigitsAux] at hd
    | k + 1 =>
      simp only [decDigitsAux, List.mem_cons] at hd
      rcases hd with h | h
      · subst h; exact Nat.mod_lt _ (by omega)
      · exact ih _ _ h

theorem digitChar_bounded_inj :
    ∀ a, a < 16 → ∀ b, b < 16 → digitChar a = digitChar b → a = b := by decide

theorem map_digitChar_inj : ∀ (l1 l2 : List Nat),
    (∀ d ∈ l1, d < 16) → (∀ d ∈ l2, d < 16) →
    l1.map digitChar = l2.map digitChar → l1 = l2 := by
  intro l1
  induction l1 with
  | nil => intro l2 _ _ h; cases l2 <;> simp_all
  | cons a t ih =>
    intro l2 h1 h2 h
    cases l2 with
    | nil => simp at h
    | cons b t2 =>
      simp only [List.map_cons, List.cons.injEq] at h
      have ha : a = b := digitChar_bounded_inj a (h1 a (by simp)) b (h2 b (by simp)) h.1
      have ht : t = t2 := ih t2 (fun d hd => h1 d (by simp [hd]))
        (fun d hd => h2 d (by simp [hd])) h.2
      rw [ha, ht]

theorem natStr_inj : ∀ (m n : Nat), natStr m = natStr n → m = n := by
  intro m n h
  unfold natStr at h
  by_cases hm : m = 0 <;> by_cases hn : n = 0
  · omega
  · exfalso
    simp only [hm, if_pos rfl, if_neg hn] at h
    have hdata : ['0'] = ((decDigits n).reverse.map digitChar) := by
      have := congrArg String.data h
      simpa using this
    have : [(0 : Nat)].map digitChar = ((decDigits n).reverse.map digitChar) := by
      simpa using hdata
    have hlists : [(0 : Nat)] = (decDigits n).reverse := by
      apply map_digitChar_inj _ _ (by simp) _ this
      intro d hd
      have := decAux_lt n n d (by simpa [decDigits] using hd)
      omega
    have : decDigits n = [0] := by
      have := congrArg List.reverse hlists
      simpa using this.symm
    have : n = 0 := by
      have h0 := ofDec_dec n
      rw [this] at h0
      simpa [ofDecDigits] using h0.symm
    exact hn this
  · exfalso
    simp only [hn, if_pos rfl, if_neg hm] at h
    have hdata : ((decDigits m).reverse.map digitChar) = ['0'] := by
      have := congrArg String.data h
      simpa using this
    have : ((decDigits m).reverse.map digitChar) = [(0 : Nat)].map digitChar := by
      simpa using hdata
    have hlists : (decDigits m).reverse = [(0 : Nat)] := by
      apply map_digitChar_inj _ _ ?_ (by simp) this
      intro d hd
      have := decAux_lt m m d (by simpa [decDigits] using hd)
      omega
    have : decDigits m = [0] := by
      have := congrArg List.reverse hlists
      simpa using this
    have : m = 0 := by
      have h0 := ofDec_dec m
      rw [this] at h0
      simpa [ofDecDigits] using h0.symm
    exact hm this
  · simp only [if_neg hm, if_neg hn] at h
    have hdata := congrArg String.data h
    simp only [String.data] at hdata
    have hlists : (decDigits m).reverse = (decDigits n).reverse := by
      apply map_digitChar_inj
      · intro d hd
        have := decAux_lt m m d (by simpa [decDigits] using hd)
        omega
      · intro d hd
        have := decAux_lt n n d (by simpa [decDigits] using hd)
        omega
      · simpa using hdata
    have : decDigits m = decDigits n := by
      have := congrArg List.reverse hlists
      simpa using this
    have h1 := ofDec_dec m
    rw [this, ofDec_dec n] at h1
    omega

theorem paramName_inj : ∀ (i j : Nat), paramName i = paramName j → i = j := by
  intro i j h
  unfold paramName at h
  have hdata := congrArg String.data h
  simp only [String.data_append] at hdata
  have : (natStr i).data = (natStr j).data := List.append_cancel_left hdata
  exact natStr_inj i j (by
    cases hi : natStr i
    cases hj : natStr j
    simp_all)

theorem nextIxFrom_not_mem (ks : List String) :
    ∀ (fuel i : Nat), (∃ j, i ≤ j ∧ j < i + fuel ∧ paramName j ∉ ks) →
    paramName (nextIxFrom ks fuel i) ∉ ks := by
  intro fuel
  induction fuel with
  | zero =>
    intro i h
    obtain ⟨j, h1, h2, _⟩ := h
    omega
  | succ f ih =>
    intro i h
    obtain ⟨j, h1, h2, h3⟩ := h
    show paramName (if paramName i ∈ ks then nextIxFrom ks f (i + 1) else i) ∉ ks
    by_cases hc : paramName i ∈ ks
    · rw [if_pos hc]
      apply ih
      refine ⟨j, ?_, by omega, h3⟩
      have : j ≠ i := fun e => h3 (e ▸ hc)
      omega
    · rw [if_neg hc]
      exact hc

theorem exists_paramName_not_mem (ks : List String) :
    ∃ j, j ≤ ks.length ∧ paramName j ∉ ks := by
  by_contra hcon
  push_neg at hcon
  have hnd : ((List.range (ks.length + 1)).map paramName).Nodup := by
    apply List.Nodup.map
    · intro a b hab
      exact paramName_inj a b hab
    · exact List.nodup_range _
  have hsub : ((List.range (ks.length + 1)).map paramName).toFinset ⊆ ks.toFinset := by
    intro x hx
    rw [List.mem_toFinset] at hx
    obtain ⟨j, hj, rfl⟩ := List.mem_map.mp hx
    rw [List.mem_range] at hj
    rw [List.mem_toFinset]
    exact hcon j (by omega)
  have h1 : ((List.range (ks.length + 1)).map paramName).toFinset.card = ks.length + 1 := by
    rw [List.toFinset_card_of_nodup hnd]
    simp
  have h2 : ks.toFinset.card ≤ ks.length := ks.toFinset_card_le
  have h3 := Finset.card_le_card hsub
  omega

theorem nextParamName_fresh (ps : QueryParams) : nextParamName ps ∉ qkeys ps := by
  unfold nextParamName
  apply nextIxFrom_not_mem
  obtain ⟨j, h1, h2⟩ := exists_paramName_not_mem (qkeys ps)
  exact ⟨j, by omega, by omega, h2⟩

theorem qkeys_append (ps qs : QueryParams) : qkeys (ps ++ qs) = qkeys ps ++ qkeys qs := by
  simp [qkeys]

theorem setParam_extP (ps : QueryParams) (v : PyVal) :
    ExtP ps (setParam ps v).2 [v] := by
  constructor
  · exact ⟨[(nextParamName ps, v)], rfl, rfl⟩
  · intro hnd
    show (qkeys (ps ++ [(nextParamName ps, v)])).Nodup
    rw [qkeys_append]
    rw [List.nodup_append]
    refine ⟨hnd, List.nodup_singleton _, ?_⟩
    intro x hx hy
    simp only [qkeys, List.map_cons, List.map_nil, List.mem_singleton] at hy
    subst hy
    exact nextParamName_fresh ps hx

theorem qkeys_mapVals (g : PyVal → PyVal) (ps : QueryParams) :
    qkeys (mapVals g ps) = qkeys ps := by
  simp [qkeys, mapVals]

theorem nextParamName_mapVals (g : PyVal → PyVal) (ps : QueryParams) :
    nextParamName (mapVals g ps) = nextParamName ps := by
  unfold nextParamName
  rw [qkeys_mapVals]

theorem mapVals_append (g : PyVal → PyVal) (ps qs : QueryParams) :
    mapVals g (ps ++ qs) = mapVals g ps ++ mapVals g qs := by
  simp [mapVals]

theorem setParam_inv (g : PyVal → PyVal) (ps : QueryParams) (v : PyVal) :
    setParam (mapVals g ps) (g v) =
      ((setParam ps v).1, mapVals g ((setParam ps v).2)) := by
  unfold setParam
  rw [nextParamName_mapVals, mapVals_append]
  rfl

theorem extP_nil (ps : QueryParams) : ExtP ps ps [] :=
  ⟨⟨[], by simp, rfl⟩, fun h => h⟩

theorem extP_comp {a b c : QueryParams} {l1 l2 : List PyVal}
    (h1 : ExtP a b l1) (h2 : ExtP b c l2) : ExtP a c (l1 ++ l2) := by
  obtain ⟨⟨t1, he1, hv1⟩, hn1⟩ := h1
  obtain ⟨⟨t2, he2, hv2⟩, hn2⟩ := h2
  constructor
  · refine ⟨t1 ++ t2, ?_, ?_⟩
    · rw [he2, he1, List.append_assoc]
    · rw [List.map_append, hv1, hv2]
  · intro h
    exact hn2 (hn1 h)

theorem transform_extP (x : SqlObj) (ps : QueryParams) :
    ExtP ps (transformQueryable x ps).2 (objLits x) := by
  cases x with
  | lit v => exact setParam_extP ps v
  | pynone => exact extP_nil ps
  | comp c => exact extP_nil ps
  | column t n => exact extP_nil ps
  | modelCls s t => exact extP_nil ps
  | bindParam n => exact extP_nil ps

theorem opBuild_extP (op : String) (l r : SqlObj) (ps : QueryParams) :
    ExtP ps (opBuild op l r ps).2 (objLits l ++ objLits r) :=
  extP_comp (transform_extP l ps) (transform_extP r (transformQueryable l ps).2)

theorem parseClause_snd (op : String) (l r : SqlObj) (ors ands : List QClause)
    (inv : Bool) (ps : QueryParams) :
    (parseClause (.mk op l r ors ands inv) ps).2 =
      (parseClauses ands (parseClauses ors (opBuild op l r ps).2).2).2 := rfl

theorem parseClauses_nil_eq (ps : QueryParams) : parseClauses [] ps = ([], ps) := rfl

theorem parseClauses_cons_snd (q : QClause) (qs : List QClause) (ps : QueryParams) :
    (parseClauses (q :: qs) ps).2 = (parseClauses qs (parseClause q ps).2).2 := rfl

mutual

theorem clause_extP : ∀ (q : QClause) (ps : QueryParams),
    ExtP ps (parseClause q ps).2 (clauseLits q)
  | .mk op l r ors ands inv, ps => by
    rw [parseClause_snd]
    show ExtP ps _ (clauseLits (.mk op l r ors ands inv))
    have h1 := opBuild_extP op l r ps
    have h2 := clauses_extP ors (opBuild op l r ps).2
    have h3 := clauses_extP ands (parseClauses ors (opBuild op l r ps).2).2
    have : clauseLits (.mk op l r ors ands inv) =
        (objLits l ++ objLits r) ++ (clausesLits ors ++ clausesLits ands) := by
      show objLits l ++ objLits r ++ clausesLits ors ++ clausesLits ands = _
      simp [List.append_assoc]
    rw [this]
    exact extP_comp h1 (extP_comp h2 h3)

theorem clauses_extP : ∀ (l : List QClause) (ps : QueryParams),
    ExtP ps (parseClauses l ps).2 (clausesLits l)
  | [], ps => extP_nil ps
  | q :: qs, ps => by
    rw [parseClauses_cons_snd]
    show ExtP ps _ (clausesLits (q :: qs))
    have : clausesLits (q :: qs) = clauseLits q ++ clausesLits qs := rfl
    rw [this]
    exact extP_comp (clause_extP q ps) (clauses_extP qs (parseClause q ps).2)

end

theorem transform_inv (g : PyVal → PyVal) (x : SqlObj) (ps : QueryParams) :
    transformQueryable (mapObj g x) (mapVals g ps) =
      ((transformQueryable x ps).1, mapVals g ((transformQueryable x ps).2)) := by
  cases x with
  | lit v =>
    show (Composable.placeholder (setParam (mapVals g ps) (g v)).1,
      (setParam (mapVals g ps) (g v)).2) = _
    rw [setParam_inv g ps v]
    rfl
  | pynone => rfl
  | comp c => rfl
  | column t n => rfl
  | modelCls s t => rfl
  | bindParam n => rfl

theorem opBuild_inv (g : PyVal → PyVal) (op : String) (l r : SqlObj) (ps : QueryParams) :
    opBuild op (mapObj g l) (mapObj g r) (mapVals g ps) =
      ((opBuild op l r ps).1, mapVals g ((opBuild op l r ps).2)) := by
  simp only [opBuild, transform_inv g l ps, transform_inv g r]

mutual

theorem clause_inv (g : PyVal → PyVal) : ∀ (q : QClause) (ps : QueryParams),
    parseClause (mapClause g q) (mapVals g ps) =
      ((parseClause q ps).1, mapVals g ((parseClause q ps).2))
  | .mk op l r ors ands inv, ps => by
    have hop := opBuild_inv g op l r ps
    have hors := clauses_inv g ors (opBuild op l r ps).2
    have hands := clauses_inv g ands (parseClauses ors (opBuild op l r ps).2).2
    have hempty1 : (mapClauses g ors).isEmpty = ors.isEmpty := by
      cases ors <;> rfl
    have hempty2 : (mapClauses g ands).isEmpty = ands.isEmpty := by
      cases ands <;> rfl
    simp only [mapClause, parseClause, hempty1, hempty2, hop, hors, hands]

theorem clauses_inv (g : PyVal → PyVal) : ∀ (l : List QClause) (ps : QueryParams),
    parseClauses (mapClauses g l) (mapVals g ps) =
      ((parseClauses l ps).1, mapVals g ((parseClauses l ps).2))
  | [], ps => rfl
  | q :: qs, ps => by
    have h1 := clause_inv g q ps
    have h2 := clauses_inv g qs (parseClause q ps).2
    simp only [mapClauses, parseClauses, h1, h2]

end

theorem sqlStrObj_extP (fn : Bool) (x : SqlObj) (ps : QueryParams) :
    ExtP ps (sqlStrObj fn x ps).2 (objLits x) := by
  cases x with
  | lit v => exact setParam_extP ps v
  | pynone => exact extP_nil ps
  | comp c => exact extP_nil ps
  | column t n => exact extP_nil ps
  | modelCls s t => exact extP_nil ps
  | bindParam n => exact extP_nil ps

theorem sqlStrObj_inv (g : PyVal → PyVal) (fn : Bool) (x : SqlObj) (ps : QueryParams) :
    sqlStrObj fn (mapObj g x) (mapVals g ps) =
      ((sqlStrObj fn x ps).1, mapVals g ((sqlStrObj fn x ps).2)) := by
  cases x with
  | lit v =>
    show (Composable.placeholder (setParam (mapVals g ps) (g v)).1,
      (setParam (mapVals g ps) (g v)).2) = _
    rw [setParam_inv g ps v]
    rfl
  | pynone => rfl
  | comp c => rfl
  | column t n => rfl
  | modelCls s t => rfl
  | bindParam n => rfl

theorem sqlStrW_extP (x : WherePart) (ps : QueryParams) :
    ExtP ps (sqlStrW x ps).2 (wLits x) := by
  cases x with
  | wclause q => exact clause_extP q ps
  | wcomp c => exact extP_nil ps

theorem sqlStrW_inv (g : PyVal → PyVal) (x : WherePart) (ps : QueryParams) :
    sqlStrW (mapW g x) (mapVals g ps) =
      ((sqlStrW x ps).1, mapVals g ((sqlStrW x ps).2)) := by
  cases x with
  | wclause q => exact clause_inv g q ps
  | wcomp c => rfl

theorem mapState_extP {α : Type}
    (f : α → QueryParams → Composable × QueryParams) (litf : α → List PyVal)
    (hf : ∀ x ps, ExtP ps (f x ps).2 (litf x)) :
    ∀ (l : List α) (ps : QueryParams),
      ExtP ps (mapState f l ps).2 ((l.map litf).flatten) := by
  intro l
  induction l with
  | nil => intro ps; exact extP_nil ps
  | cons x xs ih =>
    intro ps
    show ExtP ps (mapState f xs (f x ps).2).2 _
    have : ((x :: xs).map litf).flatten = litf x ++ (xs.map litf).flatten := by simp
    rw [this]
    exact extP_comp (hf x ps) (ih (f x ps).2)

theorem mapState_inv {α : Type} (g : PyVal → PyVal)
    (f : α → QueryParams → Composable × QueryParams) (me : α → α)
    (hf : ∀ x ps, f (me x) (mapVals g ps) = ((f x ps).1, mapVals g ((f x ps).2))) :
    ∀ (l : List α) (ps : QueryParams),
      mapState f (l.map me) (mapVals g ps) =
        ((mapState f l ps).1, mapVals g ((mapState f l ps).2)) := by
  intro l
  induction l with
  | nil => intro ps; rfl
  | cons x xs ih =>
    intro ps
    simp only [List.map_cons, mapState, hf x ps, ih (f x ps).2]

theorem buildWhere_extP (w : List WherePart) (ps : QueryParams) :
    ExtP ps (buildWhere w ps).2 ((w.map wLits).flatten) := by
  cases w with
  | nil => exact extP_nil ps
  | cons x xs =>
    exact mapState_extP sqlStrW wLits sqlStrW_extP (x :: xs) ps

theorem buildWhere_inv (g : PyVal → PyVal) (w : List WherePart) (ps : QueryParams) :
    buildWhere (w.map (mapW g)) (mapVals g ps) =
      ((buildWhere w ps).1, mapVals g ((buildWhere w ps).2)) := by
  cases w with
  | nil => rfl
  | cons x xs =>
    have h := mapState_inv g sqlStrW (mapW g) (sqlStrW_inv g) (x :: xs) ps
    simp only [List.map_cons] at h
    simp only [List.map_cons, buildWhere, h]

theorem parseSet_extP (sets : List (SqlObj × SqlObj)) (ps : QueryParams) :
    ExtP ps (parseSet sets ps).2
      ((sets.map (fun kv => objLits kv.1 ++ objLits kv.2)).flatten) :=
  mapState_extP
    (fun (kv : SqlObj × SqlObj) ps2 =>
      let kr := sqlStrObj false kv.1 ps2
      let vr := sqlStrObj false kv.2 kr.2
      (Composable.composed [kr.1, .sql " = ", vr.1], vr.2))
    (fun kv => objLits kv.1 ++ objLits kv.2)
    (fun kv ps2 => extP_comp (sqlStrObj_extP false kv.1 ps2)
      (sqlStrObj_extP false kv.2 (sqlStrObj false kv.1 ps2).2))
    sets ps

theorem parseSet_inv (g : PyVal → PyVal) (sets : List (SqlObj × SqlObj)) (ps : QueryParams) :
    parseSet (sets.map (fun kv => (mapObj g kv.1, mapObj g kv.2))) (mapVals g ps) =
      ((parseSet sets ps).1, mapVals g ((parseSet sets ps).2)) := by
  unfold parseSet
  have h := mapState_inv g
    (fun (kv : SqlObj × SqlObj) ps =>
      let kr := sqlStrObj false kv.1 ps
      let vr := sqlStrObj false kv.2 kr.2
      (Composable.composed [kr.1, .sql " = ", vr.1], vr.2))
    (fun kv => (mapObj g kv.1, mapObj g kv.2))
    (by
      intro kv ps2
      show (let kr := sqlStrObj false (mapObj g kv.1) (mapVals g ps2)
        let vr := sqlStrObj false (mapObj g kv.2) kr.2
        (Composable.composed [kr.1, .sql " = ", vr.1], vr.2)) = _
      simp only [sqlStrObj_inv g false kv.1 ps2, sqlStrObj_inv g false kv.2])
    sets ps
  simp only [h]

theorem updateParse_ok (u : UpdateStmt) (h : u.target ≠ []) :
    ∃ r, updateParse u = .ok r := by
  obtain ⟨tgt, sets, wh⟩ := u
  cases tgt with
  | nil => exact absurd rfl h
  | cons x xs => exact ⟨_, rfl⟩

theorem updateParse_extP (u : UpdateStmt) (h : u.target ≠ []) :
    ExtP [] (updateParams u) (updLits u) := by
  obtain ⟨tgt, sets, wh⟩ := u
  cases tgt with
  | nil => exact absurd rfl h
  | cons x xs =>
    have h1 := mapState_extP (sqlStrObj false) objLits (sqlStrObj_extP false) (x :: xs) []
    have h2 := parseSet_extP sets (mapState (sqlStrObj false) (x :: xs) []).2
    have h3 := buildWhere_extP wh
      (parseSet sets (mapState (sqlStrObj false) (x :: xs) []).2).2
    have hc := extP_comp h1 (extP_comp h2 h3)
    rw [← List.append_assoc] at hc
    exact hc

theorem updateParse_inv (g : PyVal → PyVal) (u : UpdateStmt) :
    updateParse (mapUpdate g u) =
      (updateParse u).map (fun r => (r.1, mapVals g r.2)) := by
  obtain ⟨tgt, sets, wh⟩ := u
  cases tgt with
  | nil => rfl
  | cons x xs =>
    have htr := mapState_inv g (sqlStrObj false) (mapObj g)
      (sqlStrObj_inv g false) (x :: xs) []
    rw [show mapVals g ([] : QueryParams) = [] from rfl] at htr
    simp only [List.map_cons] at htr
    have hsr := parseSet_inv g sets (mapState (sqlStrObj false) (x :: xs) []).2
    have hwr := buildWhere_inv g wh
      (parseSet sets (mapState (sqlStrObj false) (x :: xs) []).2).2
    show updateParse ⟨(x :: xs).map (mapObj g),
      sets.map (fun kv => (mapObj g kv.1, mapObj g kv.2)), wh.map (mapW g)⟩ = _
    simp only [List.map_cons, updateParse, Except.map, htr, hsr, hwr]

/-- C1 (amended): for every statement built through the statement
builder (UPDATE shown, carrying both WHERE and SET clauses), `parse()`
binds every *non-null* literal value supplied in a WHERE or SET clause
— any value that is not Python None, not a Column, not a raw-SQL
Composable and not a named BindParam — to a freshly generated synthetic
parameter name: the returned parameter map lists exactly those literal
values in rendering order under pairwise-distinct keys (so two
occurrences of an identical value receive two distinct names, with no
deduplication), and the rendered SQL text is literally invariant under
any substitution of the literal values — it consists of placeholders
only and never contains a textual substitution of a value, even one
made of SQL metacharacters.  (A literal Python None is the exception
the original claim missed: it renders as the SQL keyword NULL and is
recorded in no parameter — see the counterexample.) -/
theorem c1_parameterization (u : UpdateStmt) (g : PyVal → PyVal)
    (h : u.target ≠ []) :
    (updateParams u).map Prod.snd = updLits u ∧
    (qkeys (updateParams u)).Nodup ∧
    updateText (mapUpdate g u) = updateText u ∧
    updateParams (mapUpdate g u) = mapVals g (updateParams u) := by
  obtain ⟨⟨tl, he, hv⟩, hnd⟩ := updateParse_extP u h
  rw [List.nil_append] at he
  subst he
  obtain ⟨r, hr⟩ := updateParse_ok u h
  have hinv := updateParse_inv g u
  rw [hr] at hinv
  refine ⟨hv, hnd (List.nodup_nil), ?_, ?_⟩
  · show updateText (mapUpdate g u) = updateText u
    unfold updateText
    rw [hinv, hr]
    rfl
  · show updateParams (mapUpdate g u) = mapVals g (updateParams u)
    unfold updateParams
    rw [hinv, hr]
    rfl

/-- Witness for C1 at the concrete statement
UPDATE "public"."t" SET "x" = 'a' WHERE "t"."id" = 'a' AND "t"."y" = 7:
the two identical literals 'a' and the literal 7 each get their own
fresh parameter, and the rendered text is unchanged when every literal
is replaced by a SQL-injection string. -/
theorem c1_parameterization_witness :
    u1.target ≠ [] ∧
    ((updateParams u1).map Prod.snd = updLits u1 ∧
     (qkeys (updateParams u1)).Nodup ∧
     updateText (mapUpdate gInject u1) = updateText u1 ∧
     updateParams (mapUpdate gInject u1) = mapVals gInject (updateParams u1)) :=
  ⟨by simp [u1], c1_parameterization u1 gInject (by simp [u1])⟩

/-- Counterexample to C1 as stated: the value None supplied in the SET
and WHERE clauses of `u0` is neither a Column, nor raw SQL, nor a
BindParam, yet `parse()` records *no* parameter for it and substitutes
the literal SQL keyword NULL into the rendered text. -/
theorem c1_counterexample :
    u0.set_ = [(SqlObj.column "t" "x", SqlObj.pynone)] ∧
    objIsClaimLiteral SqlObj.pynone = true ∧
    updateParams u0 = [] ∧
    updateText u0 = "UPDATE \"public\".\"t\" SET \"x\" = NULL WHERE \"t\".\"id\" = NULL;" := by
  refine ⟨rfl, rfl, rfl, ?_⟩
  decide

theorem dictInsert_keys_sub {κ α : Type} [DecidableEq κ]
    (l : List (κ × α)) (k : κ) (v : α) :
    ∀ x, x ∈ (dictInsert l k v).map Prod.fst → x ∈ l.map Prod.fst ∨ x = k := by
  induction l with
  | nil => intro x hx; simp [dictInsert] at hx; right; exact hx
  | cons p rest ih =>
    intro x hx
    simp only [dictInsert] at hx
    by_cases hp : p.1 = k
    · rw [if_pos hp] at hx
      simp only [List.map_cons, List.mem_cons] at hx
      rcases hx with h | h
      · right; exact h
      · left; rw [List.map_cons]; exact List.mem_cons_of_mem _ h
    · rw [if_neg hp] at hx
      simp only [List.map_cons, List.mem_cons] at hx
      rcases hx with h | h
      · left; rw [List.map_cons, h]; exact List.mem_cons_self _ _
      · rcases ih x h with h2 | h2
        · left; rw [List.map_cons]; exact List.mem_cons_of_mem _ h2
        · right; exact h2

theorem dictInsert_keys_nodup {κ α : Type} [DecidableEq κ]
    (l : List (κ × α)) (k : κ) (v : α) (h : (l.map Prod.fst).Nodup) :
    ((dictInsert l k v).map Prod.fst).Nodup := by
  induction l with
  | nil => simp [dictInsert]
  | cons p rest ih =>
    simp only [List.map_cons, List.nodup_cons] at h
    simp only [dictInsert]
    by_cases hp : p.1 = k
    · rw [if_pos hp]
      simp only [List.map_cons, List.nodup_cons]
      exact ⟨by rw [← hp]; exact h.1, h.2⟩
    · rw [if_neg hp]
      simp only [List.map_cons, List.nodup_cons]
      refine ⟨?_, ih h.2⟩
      intro hcon
      rcases dictInsert_keys_sub rest k v p.1 hcon with h2 | h2
      · exact h.1 h2
      · exact hp h2

theorem dictInsert_lookup {κ α : Type} [DecidableEq κ]
    (l : List (κ × α)) (k : κ) (v : α) :
    lookupA (dictInsert l k v) k = some v := by
  induction l with
  | nil => simp [dictInsert, lookupA]
  | cons p rest ih =>
    simp only [dictInsert]
    by_cases hp : p.1 = k
    · rw [if_pos hp]
      simp [lookupA]
    · rw [if_neg hp]
      show lookupA (p :: dictInsert rest k v) k = some v
      simp only [lookupA, if_neg hp]
      exact ih

theorem dictInsert_count {κ α : Type} [DecidableEq κ]
    (l : List (κ × α)) (k : κ) (v : α) (h : (l.map Prod.fst).Nodup) :
    ((dictInsert l k v).map Prod.fst).count k = 1 := by
  induction l with
  | nil => simp [dictInsert]
  | cons p rest ih =>
    simp only [List.map_cons, List.nodup_cons] at h
    simp only [dictInsert]
    by_cases hp : p.1 = k
    · rw [if_pos hp]
      simp only [List.map_cons]
      rw [List.count_cons_self]
      have : (rest.map Prod.fst).count k = 0 := by
        rw [List.count_eq_zero]
        rw [← hp]
        exact h.1
      omega
    · rw [if_neg hp]
      simp only [List.map_cons]
      rw [List.count_cons_of_ne (fun e => hp e.symm)]
      exact ih h.2

theorem sAdd_keys_nodup (s : SessionSt) (m : EModel)
    (h : (s.known_objects.map Prod.fst).Nodup) :
    ((sAdd s m).known_objects.map Prod.fst).Nodup := by
  unfold sAdd
  by_cases hp : primaryStr (prepObj m) ≠ ""
  · rw [if_pos hp]
    exact dictInsert_keys_nodup _ _ _ h
  · rw [if_neg hp]
    exact h

theorem sAdd_known (s : SessionSt) (m : EModel) (k : String)
    (hk : primaryStr (prepObj m) = k) (hne : k ≠ "") :
    (sAdd s m).known_objects = dictInsert s.known_objects k (prepObj m) := by
  simp only [sAdd]
  rw [hk, if_pos hne]

/-- C2: for every sequence of `Session.add` calls whose (prepared)
argument entities all carry the same resolvable identity string `k`,
the identity map of the resulting session holds exactly one entry under
`k`, and that entry is the last-added instance (with its defaults
materialized exactly as `add` leaves it), so its column values are the
ones observable through the map. -/
theorem c2_identity_map (s : SessionSt) (ms : List EModel) (k : String)
    (hnd : (s.known_objects.map Prod.fst).Nodup)
    (hne : ms ≠ [])
    (hk : ∀ m ∈ ms, primaryStr (prepObj m) = k)
    (hkne : k ≠ "") :
    (((ms.foldl sAdd s).known_objects.map Prod.fst).count k = 1) ∧
    lookupA (ms.foldl sAdd s).known_objects k = some (prepObj (ms.getLast hne)) := by
  induction ms generalizing s with
  | nil => exact absurd rfl hne
  | cons m rest ih =>
    by_cases hrest : rest = []
    · subst hrest
      show (((sAdd s m).known_objects.map Prod.fst).count k = 1) ∧
        lookupA (sAdd s m).known_objects k = some (prepObj m)
      rw [sAdd_known s m k (hk m (by simp)) hkne]
      exact ⟨dictInsert_count _ _ _ hnd, dictInsert_lookup _ _ _⟩
    · have hstep := ih (sAdd s m) (sAdd_keys_nodup s m hnd) hrest
        (fun x hx => hk x (List.mem_cons_of_mem _ hx))
      have hlast : (m :: rest).getLast hne = rest.getLast hrest :=
        List.getLast_cons hrest
      rw [hlast]
      exact hstep

/-- Witness for C2: adding `c2a` then `c2b` (both with identity "7")
to the empty session leaves exactly one entry, holding `c2b`'s
values. -/
theorem c2_identity_map_witness :
    ((([c2a, c2b].foldl sAdd emptySession).known_objects.map Prod.fst).count "7" = 1) ∧
    lookupA ([c2a, c2b].foldl sAdd emptySession).known_objects "7" =
      some (prepObj c2b) :=
  c2_identity_map emptySession [c2a, c2b] "7" (by simp [emptySession])
    (by simp) (by decide) (by decide)

/-- C3 (code bug): the "not all primary keys set" guard in
`build_update` / `build_delete` is provably dead — the primary-key dict
receives one entry per primary-key column whether or not the column
holds a value, so the two lengths it compares are always equal.  On the
claim's own scenario `m3` (two-column composite key, only "a" set, one
dirty column) `build_update` returns a statement — with the unset key
rendered as a WHERE equality against None — and `build_delete` does
too, contradicting the documented no-statement behaviour. -/
theorem c3_incomplete_key_guard_dead :
    (∀ m : EModel, (getUpdatePrimaryKeys m).length = (instPrimaryCols m).length) ∧
    buildUpdate m3 =
      some { wheres := [("a", some (.vint 1)), ("b", none)],
             sets := [("c", some (.vstr "x"))] } ∧
    buildDelete m3 = some [("a", some (.vint 1)), ("b", none)] := by
  refine ⟨?_, by decide, by decide⟩
  intro m
  unfold getUpdatePrimaryKeys
  rw [List.length_map]

/-- C4 (code bug): `primary_str` stringifies an unset primary key as
the text "None", which is truthy, so `add` files the identity-less
entity `m4` in the identity map under the key "None" and appends
nothing to `created_objects`; a second identity-less entity of a
*different* table (`m4b`) then lands on the same "None" key and evicts
the first. -/
theorem c4_identityless_add :
    primaryStr (prepObj m4) = "None" ∧
    (sAdd emptySession m4).created_objects = [] ∧
    ((sAdd emptySession m4).known_objects.map Prod.fst) = ["None"] ∧
    ((sAdd (sAdd emptySession m4) m4b).known_objects.map Prod.fst) = ["None"] ∧
    lookupA (sAdd (sAdd emptySession m4) m4b).known_objects "None" = some (prepObj m4b) := by
  refine ⟨by decide, by decide, by decide, by decide, by decide⟩

theorem getColumnUpdates_aux (cols : List PCol)
    (acc1 : List (String × Option PyVal)) (acc2 : List PCol) :
    cols.foldl
      (fun acc c =>
        if c.changed = false then
          if c.on_update.isSome then (acc.1, acc.2 ++ [c]) else acc
        else (acc.1 ++ [(c.name, (colParseToDb false c).1)], acc.2))
      (acc1, acc2) =
    (acc1 ++ (cols.filter (fun c => c.changed)).map
        (fun c => (c.name, (colParseToDb false c).1)),
      acc2 ++ cols.filter (fun c => !c.changed && c.on_update.isSome)) := by
  induction cols generalizing acc1 acc2 with
  | nil => simp
  | cons c rest ih =>
    simp only [List.foldl_cons]
    by_cases hc : c.changed = false
    · by_cases ho : c.on_update.isSome
      · rw [if_pos hc, if_pos ho]
        rw [ih acc1 (acc2 ++ [c])]
        have h1 : (c :: rest).filter (fun c => c.changed) =
            rest.filter (fun c => c.changed) := by
          rw [List.filter_cons]
          simp [hc]
        have h2 : (c :: rest).filter (fun c => !c.changed && c.on_update.isSome) =
            c :: rest.filter (fun c => !c.changed && c.on_update.isSome) := by
          rw [List.filter_cons]
          simp [hc, ho]
        rw [h1, h2]
        simp
      · rw [if_pos hc, if_neg ho]
        rw [ih acc1 acc2]
        have h1 : (c :: rest).filter (fun c => c.changed) =
            rest.filter (fun c => c.changed) := by
          rw [List.filter_cons]
          simp [hc]
        have h2 : (c :: rest).filter (fun c => !c.changed && c.on_update.isSome) =
            rest.filter (fun c => !c.changed && c.on_update.isSome) := by
          rw [List.filter_cons]
          simp [hc, ho]
        rw [h1, h2]
    · rw [if_neg hc]
      rw [ih (acc1 ++ [(c.name, (colParseToDb false c).1)]) acc2]
      have hct : c.changed = true := by
        cases h : c.changed
        · exact absurd h hc
        · rfl
      have h1 : (c :: rest).filter (fun c => c.changed) =
          c :: rest.filter (fun c => c.changed) := by
        rw [List.filter_cons]
        simp [hct]
      have h2 : (c :: rest).filter (fun c => !c.changed && c.on_update.isSome) =
          rest.filter (fun c => !c.changed && c.on_update.isSome) := by
        rw [List.filter_cons]
        simp [hct]
      rw [h1, h2]
      simp

theorem getColumnUpdates_eq (m : EModel) :
    getColumnUpdates m =
      ((m.columns.filter (fun c => c.changed)).map
          (fun c => (c.name, (colParseToDb false c).1)),
        m.columns.filter (fun c => !c.changed && c.on_update.isSome)) := by
  unfold getColumnUpdates
  rw [getColumnUpdates_aux m.columns [] []]
  simp

/-- C5 (amended): for every persisted entity hydrated from storage and
then mutated in exactly one column `a` (so `a` is the only dirty
column), `build_update` produces a statement whose SET list is exactly
the pair for `a` — carrying `a`'s explicitly held value — followed by
one pair per *non-dirty* column carrying an `on_update` producer, each
carrying its producer's fresh output, and nothing else.  An `on_update`
producer is therefore re-evaluated on an update only when its column is
not itself dirty; a dirty `on_update` column is written with its set
value, not the producer's (see the counterexample). -/
theorem c5_set_list (m : EModel) (a : PCol)
    (hone : m.columns.filter (fun c => c.changed) = [a]) :
    ∃ out, buildUpdate m = some out ∧
      out.sets =
        (a.name, (colParseToDb false a).1) ::
          (m.columns.filter (fun c => !c.changed && c.on_update.isSome)).map
            (fun c => (c.name, c.on_update)) ∧
      out.wheres = getUpdatePrimaryKeys m := by
  have hlen : (getUpdatePrimaryKeys m).length = (instPrimaryCols m).length := by
    unfold getUpdatePrimaryKeys
    rw [List.length_map]
  have hg := getColumnUpdates_eq m
  have hbuild : buildUpdate m = some
      { wheres := getUpdatePrimaryKeys m
        sets := (a.name, (colParseToDb false a).1) ::
          (m.columns.filter (fun c => !c.changed && c.on_update.isSome)).map
            (fun c => (c.name, c.on_update)) } := by
    unfold buildUpdate
    rw [if_neg (by omega)]
    rw [hg]
    have hfst : ((m.columns.filter (fun c => c.changed)).map
        (fun c => (c.name, (colParseToDb false c).1))) =
        [(a.name, (colParseToDb false a).1)] := by
      rw [hone]
      rfl
    simp only [hfst]
    rw [if_neg (by simp)]
    unfold setUpdateColumns
    simp
  exact ⟨_, hbuild, rfl, rfl⟩

/-- Witness for C5 at `m5w`: mutating exactly the column "a" of a
hydrated entity yields the SET list
`[("a", 'new'), ("upd", 9)]` — the mutated column plus the non-dirty
`on_update` column carrying its producer's output — with the WHERE
keyed on the primary key. -/
theorem c5_set_list_witness :
    ∃ out, buildUpdate m5w = some out ∧
      out.sets = [("a", some (PyVal.vstr "new")), ("upd", some (PyVal.vint 9))] ∧
      out.wheres = [("id", some (PyVal.vint 1))] := by
  obtain ⟨out, h1, h2, h3⟩ := c5_set_list m5w
    { name := "a", ctype := .tString, value := some (.vstr "new"),
      value_set := true, changed := true } (by decide)
  refine ⟨out, h1, ?_, ?_⟩
  · rw [h2]; decide
  · rw [h3]; decide

/-- Counterexample to C5 as stated: in `m5` the single mutated column
"a" itself carries an `on_update` producer (producing 9), but the built
SET list carries the explicitly set value 5 — the producer is *not*
re-evaluated for a dirty column, refuting "re-evaluated on every update
regardless of that column's dirty flag". -/
theorem c5_counterexample :
    (buildUpdate m5).map (fun r => r.sets) = some [("a", some (PyVal.vint 5))] ∧
    (m5.columns.filter (fun c => c.changed)).map (fun c => c.on_update) =
      [some (PyVal.vint 9)] ∧
    PyVal.vint 5 ≠ PyVal.vint 9 :=
  ⟨by decide, by decide, by decide⟩

/-- C6 (code bug): parent-side relationship resolution reads the
foreign-key value from freshly cloned *class-level prototype* columns
(`self.table_class.selectable_columns()`), which never hold a value, so
for every session state — including one whose identity map holds a
hydrated parent matching the child instance's foreign key — resolution
returns None without consulting the instance's foreign key and without
querying.  The second conjunct shows the very scan the resolver would
run does find the parent "p1" in the session used as failing input. -/
theorem c6_parent_resolution :
    (∀ s : SessionSt,
      relGetFromSession "parent" childCls (some relRegistry) s = .resolvedNone) ∧
    (sessionWithParent.known_objects.map Prod.snd).find?
      (fun obj => obj.tableName == "parent" &&
        (instPrimaryCols obj).any
          (fun rc => pyEqOpt (colGetValue false rc).1 (some (.vstr "p1")))) =
      some parentObj :=
  ⟨fun _ => rfl, by decide⟩

theorem foldl_max_le_init : ∀ (l : List Nat) (a : Nat), a ≤ l.foldl max a := by
  intro l
  induction l with
  | nil => intro a; exact Nat.le_refl a
  | cons y t ih =>
    intro a
    calc a ≤ max a y := Nat.le_max_left a y
    _ ≤ t.foldl max (max a y) := ih (max a y)

theorem foldl_max_le_mem : ∀ (l : List Nat) (a x : Nat), x ∈ l → x ≤ l.foldl max a := by
  intro l
  induction l with
  | nil => intro a x hx; simp at hx
  | cons y t ih =>
    intro a x hx
    rcases List.mem_cons.mp hx with h | h
    · subst h
      calc x ≤ max a x := Nat.le_max_right a x
      _ ≤ t.foldl max (max a x) := foldl_max_le_init t (max a x)
    · exact ih (max a y) x h

theorem freshAddr_gt (h : Heap) : ∀ p ∈ h, p.1 < freshAddr h := by
  intro p hp
  unfold freshAddr
  have : p.1 ≤ (h.map Prod.fst).foldl max 0 :=
    foldl_max_le_mem (h.map Prod.fst) 0 p.1 (List.mem_map_of_mem Prod.fst hp)
  omega

theorem lookupA_some_mem {κ α : Type} [DecidableEq κ]
    (l : List (κ × α)) (k : κ) (v : α) (h : lookupA l k = some v) : (k, v) ∈ l := by
  induction l with
  | nil => simp [lookupA] at h
  | cons p rest ih =>
    simp only [lookupA] at h
    by_cases hp : p.1 = k
    · rw [if_pos hp] at h
      simp only [Option.some.injEq] at h
      have hpk : p = (k, v) := by
        obtain ⟨p1, p2⟩ := p
        simp only at hp h
        rw [hp, h]
      rw [← hpk]
      exact List.mem_cons_self p rest
    · rw [if_neg hp] at h
      exact List.mem_cons_of_mem _ (ih h)

theorem lookupA_freshAddr (h : Heap) : lookupA h (freshAddr h) = none := by
  cases hl : lookupA h (freshAddr h) with
  | none => rfl
  | some o =>
    have := freshAddr_gt h _ (lookupA_some_mem h (freshAddr h) o hl)
    omega

theorem lookupA_append_some {κ α : Type} [DecidableEq κ]
    (l t : List (κ × α)) (k : κ) (v : α) (h : lookupA l k = some v) :
    lookupA (l ++ t) k = some v := by
  induction l with
  | nil => simp [lookupA] at h
  | cons p rest ih =>
    simp only [lookupA] at h
    simp only [List.cons_append, lookupA]
    by_cases hp : p.1 = k
    · rw [if_pos hp] at h ⊢; exact h
    · rw [if_neg hp] at h ⊢; exact ih h

theorem lookupA_append_none {κ α : Type} [DecidableEq κ]
    (l t : List (κ × α)) (k : κ) (h : lookupA l k = none) :
    lookupA (l ++ t) k = lookupA t k := by
  induction l with
  | nil => rfl
  | cons p rest ih =>
    simp only [lookupA] at h
    simp only [List.cons_append, lookupA]
    by_cases hp : p.1 = k
    · rw [if_pos hp] at h; exact absurd h (by simp)
    · rw [if_neg hp] at h ⊢; exact ih h

theorem lookupA_heapSet_ne (h : Heap) (a b : Nat) (o : HObj) (hne : a ≠ b) :
    lookupA (heapSet h b o) a = lookupA h a := by
  induction h with
  | nil => rfl
  | cons p rest ih =>
    simp only [heapSet, List.map_cons]
    by_cases hp : p.1 = b
    · rw [if_pos hp]
      show lookupA ((b, o) :: heapSet rest b o) a = lookupA (p :: rest) a
      simp only [lookupA]
      rw [if_neg (fun e => hne e.symm), if_neg (by rw [hp]; exact fun e => hne e.symm)]
      exact ih
    · rw [if_neg hp]
      show lookupA (p :: heapSet rest b o) a = lookupA (p :: rest) a
      simp only [lookupA]
      by_cases hpa : p.1 = a
      · rw [if_pos hpa, if_pos hpa]
      · rw [if_neg hpa, if_neg hpa]
        exact ih

theorem dictSetKey_other (h : Heap) (a b : Nat) (k : String) (v : HVal) (hne : a ≠ b) :
    lookupA (dictSetKey h b k v) a = lookupA h a := by
  unfold dictSetKey
  cases lookupA h b with
  | none => rfl
  | some o =>
    cases o with
    | hdict kvs => exact lookupA_heapSet_ne h a b _ hne
    | hlist items => rfl

theorem listAppendH_other (h : Heap) (a b : Nat) (v : HVal) (hne : a ≠ b) :
    lookupA (listAppendH h b v) a = lookupA h a := by
  unfold listAppendH
  cases lookupA h b with
  | none => rfl
  | some o =>
    cases o with
    | hdict kvs => rfl
    | hlist items => exact lookupA_heapSet_ne h a b _ hne

/-- C7 (amended): cloning a column whose held value is a mutable
container produces a *one-level-independent* copy, not a deep copy:
the clone's value is a freshly allocated container with the same
immediate entries (so nested references stay shared), all metadata is
copied verbatim, the prototype's binding is untouched, and top-level
mutations through the clone (dict key writes, list appends, wholesale
replacement) never change the container the prototype points to — and
vice versa.  Deep independence fails: mutating a *nested* container
reachable through the clone is visible through the prototype (see the
counterexample). -/
theorem c7_clone_shallow (h : Heap) (c : HCol) (a : Nat) (obj : HObj)
    (hv : c.value = .href a) (ho : lookupA h a = some obj) :
    (hcolClone h c).1.value = .href (freshAddr h) ∧
    (hcolClone h c).1.name = c.name ∧
    (hcolClone h c).1.changed = c.changed ∧
    (hcolClone h c).1.value_set = c.value_set ∧
    (hcolClone h c).2 = h ++ [(freshAddr h, obj)] ∧
    lookupA h (freshAddr h) = none ∧
    lookupA (hcolClone h c).2 a = some obj ∧
    lookupA (hcolClone h c).2 (freshAddr h) = some obj ∧
    (∀ (k : String) (w : HVal),
      lookupA (dictSetKey (hcolClone h c).2 (freshAddr h) k w) a = some obj) ∧
    (∀ (w : HVal),
      lookupA (listAppendH (hcolClone h c).2 (freshAddr h) w) a = some obj) ∧
    (∀ (o2 : HObj),
      lookupA (heapSet (hcolClone h c).2 a o2) (freshAddr h) = some obj) := by
  have hane : a ≠ freshAddr h := by
    have := freshAddr_gt h _ (lookupA_some_mem h a obj ho)
    omega
  have hcopy : copyShallow h c.value = (.href (freshAddr h), h ++ [(freshAddr h, obj)]) := by
    rw [hv]
    show (match lookupA h a with
      | some o => (HVal.href (freshAddr h), h ++ [(freshAddr h, o)])
      | none => (HVal.href a, h)) = _
    rw [ho]
  have hclone : hcolClone h c = ({ c with value := .href (freshAddr h) },
      h ++ [(freshAddr h, obj)]) := by
    simp only [hcolClone, hcopy]
  rw [hclone]
  have hlf : lookupA (h ++ [(freshAddr h, obj)]) (freshAddr h) = some obj := by
    rw [lookupA_append_none h _ _ (lookupA_freshAddr h)]
    simp [lookupA]
  have hla : lookupA (h ++ [(freshAddr h, obj)]) a = some obj :=
    lookupA_append_some h _ a obj ho
  refine ⟨rfl, rfl, rfl, rfl, rfl, lookupA_freshAddr h, hla, hlf, ?_, ?_, ?_⟩
  · intro k w
    rw [dictSetKey_other _ a (freshAddr h) k w hane]
    exact hla
  · intro w
    rw [listAppendH_other _ a (freshAddr h) w hane]
    exact hla
  · intro o2
    rw [lookupA_heapSet_ne _ (freshAddr h) a o2 (fun e => hane e.symm)]
    exact hlf

/-- Witness for C7 at the concrete prototype `proto7` holding the dict
at address 0 on heap `h7`. -/
theorem c7_clone_shallow_witness :
    proto7.value = .href 0 ∧ lookupA h7 0 = some (.hdict [("a", .href 1)]) ∧
    ((hcolClone h7 proto7).1.value = .href (freshAddr h7) ∧
     (hcolClone h7 proto7).1.name = proto7.name ∧
     (hcolClone h7 proto7).1.changed = proto7.changed ∧
     (hcolClone h7 proto7).1.value_set = proto7.value_set ∧
     (hcolClone h7 proto7).2 = h7 ++ [(freshAddr h7, .hdict [("a", .href 1)])] ∧
     lookupA h7 (freshAddr h7) = none ∧
     lookupA (hcolClone h7 proto7).2 0 = some (.hdict [("a", .href 1)]) ∧
     lookupA (hcolClone h7 proto7).2 (freshAddr h7) = some (.hdict [("a", .href 1)]) ∧
     (∀ (k : String) (w : HVal),
       lookupA (dictSetKey (hcolClone h7 proto7).2 (freshAddr h7) k w) 0 =
         some (.hdict [("a", .href 1)])) ∧
     (∀ (w : HVal),
       lookupA (listAppendH (hcolClone h7 proto7).2 (freshAddr h7) w) 0 =
         some (.hdict [("a", .href 1)])) ∧
     (∀ (o2 : HObj),
       lookupA (heapSet (hcolClone h7 proto7).2 0 o2) (freshAddr h7) =
         some (.hdict [("a", .href 1)]))) :=
  ⟨rfl, rfl, c7_clone_shallow h7 proto7 0 (.hdict [("a", .href 1)]) rfl rfl⟩

/-- Counterexample to C7 as stated: the held value `{"a": [1]}` is
cloned; appending 2 to the nested list reached *through the clone*
changes what the original prototype observes from `{"a": [1]}` to
`{"a": [1, 2]}` — `copy.copy` is shallow, not a deep copy. -/
theorem c7_counterexample :
    readVal 9 h7 proto7.value = .pdict [("a", .plist [.pint 1])] ∧
    readVal 9 h7after proto7.value = .pdict [("a", .plist [.pint 1, .pint 2])] ∧
    PureV.pdict [("a", .plist [.pint 1])] ≠
      PureV.pdict [("a", .plist [.pint 1, .pint 2])] := by
  refine ⟨rfl, rfl, ?_⟩
  intro hcon
  simp at hcon

theorem pyEq_toVal_vstr (q : PyPrim) (s : String) :
    pyEq q.toVal (.vstr s) = true ↔ q = .pstr s := by
  cases q with
  | pint n => simp [PyPrim.toVal, pyEq]
  | pstr t => simp [PyPrim.toVal, pyEq]
  | pbool b => simp [PyPrim.toVal, pyEq]

theorem enum_find_member (ms : List (String × PyPrim)) (n s : String)
    (hmem : (n, PyPrim.pstr s) ∈ ms)
    (hnd : (ms.map Prod.snd).Nodup) :
    ms.find? (fun m => pyEq m.2.toVal (.vstr s)) = some (n, .pstr s) := by
  induction ms with
  | nil => simp at hmem
  | cons m rest ih =>
    simp only [List.map_cons, List.nodup_cons] at hnd
    show (match pyEq m.2.toVal (PyVal.vstr s) with
      | true => some m
      | false => rest.find? (fun m => pyEq m.2.toVal (PyVal.vstr s))) =
      some (n, PyPrim.pstr s)
    by_cases hp : pyEq m.2.toVal (PyVal.vstr s) = true
    · rw [hp]
      have hm2 : m.2 = .pstr s := (pyEq_toVal_vstr m.2 s).mp hp
      rcases List.mem_cons.mp hmem with h | h
      · rw [← h]
      · exfalso
        apply hnd.1
        rw [hm2]
        exact List.mem_map_of_mem Prod.snd h
    · have hf : pyEq m.2.toVal (PyVal.vstr s) = false := by
        revert hp
        cases pyEq m.2.toVal (PyVal.vstr s) <;> simp
      rw [hf]
      rcases List.mem_cons.mp hmem with h | h
      · exfalso
        apply hp
        rw [← h]
        exact (pyEq_toVal_vstr _ s).mpr rfl
      · exact ih h hnd.2

theorem charToDigit_digitChar : ∀ d, d < 16 → charToDigit (digitChar d) = some d := by
  decide

theorem digitChar_ne_dash : ∀ d, d < 16 → digitChar d ≠ '-' := by decide

theorem filter_eq_self_of_ne (cs : List Char) (hnd : ∀ c ∈ cs, c ≠ '-') :
    cs.filter (fun c => c ≠ '-') = cs := by
  induction cs with
  | nil => rfl
  | cons c rest ih =>
    rw [List.filter_cons]
    rw [if_pos (by simp [hnd c (by simp)])]
    rw [ih (fun x hx => hnd x (List.mem_cons_of_mem _ hx))]

theorem uuidDashes_filter (cs : List Char) (hnd : ∀ c ∈ cs, c ≠ '-') :
    (uuidDashes cs).filter (fun c => c ≠ '-') = cs := by
  unfold uuidDashes
  have htake : ∀ (j k : Nat), ((cs.drop j).take k).filter (fun c => c ≠ '-') =
      (cs.drop j).take k := by
    intro j k
    exact filter_eq_self_of_ne _
      (fun c hc => hnd c (List.drop_subset j cs (List.take_subset k (cs.drop j) hc)))
  have h20 : (cs.drop 16).take 4 ++ cs.drop 20 = cs.drop 16 := by
    have h := List.take_append_drop 4 (cs.drop 16)
    rw [List.drop_drop] at h
    norm_num at h
    exact h
  have h16 : (cs.drop 12).take 4 ++ cs.drop 16 = cs.drop 12 := by
    have h := List.take_append_drop 4 (cs.drop 12)
    rw [List.drop_drop] at h
    norm_num at h
    exact h
  have h12 : (cs.drop 8).take 4 ++ cs.drop 12 = cs.drop 8 := by
    have h := List.take_append_drop 4 (cs.drop 8)
    rw [List.drop_drop] at h
    norm_num at h
    exact h
  have hdashcond : (decide (('-' : Char) ≠ '-')) = false := rfl
  simp only [List.filter_append, List.filter_cons, hdashcond, Bool.false_eq_true,
    if_false]
  rw [filter_eq_self_of_ne _ (fun c hc => hnd c (List.take_subset 8 cs hc))]
  rw [htake 8 4, htake 12 4, htake 16 4]
  rw [filter_eq_self_of_ne _ (fun c hc => hnd c (List.drop_subset 20 cs hc))]
  simp only [List.append_assoc]
  rw [h20, h16, h12]
  exact List.take_append_drop 8 cs

theorem uuidParse_chars (ds : List Nat) (h16 : ∀ d ∈ ds, d < 16) :
    (ds.map digitChar).foldr
      (fun c acc => acc.bind (fun ds2 => (charToDigit c).map (fun d => d :: ds2)))
      (some []) = some ds := by
  induction ds with
  | nil => rfl
  | cons d rest ih =>
    simp only [List.map_cons, List.foldr_cons]
    rw [ih (fun x hx => h16 x (List.mem_cons_of_mem _ hx))]
    show (charToDigit (digitChar d)).map (fun x => x :: rest) = some (d :: rest)
    rw [charToDigit_digitChar d (h16 d (by simp))]
    rfl

theorem uuidParse_round (ds : List Nat) (hlen : ds.length = 32)
    (h16 : ∀ d ∈ ds, d < 16) :
    uuidParse (uuidStr ds) = some ds := by
  unfold uuidParse uuidStr
  have hdash : ∀ c ∈ ds.map digitChar, c ≠ '-' := by
    intro c hc
    obtain ⟨d, hd, rfl⟩ := List.mem_map.mp hc
    exact digitChar_ne_dash d (h16 d hd)
  show (let cs := (uuidDashes (ds.map digitChar)).filter (fun c => c ≠ '-')
    if cs.length = 32 then _ else none) = some ds
  rw [show (uuidDashes (ds.map digitChar)).filter (fun c => c ≠ '-') = ds.map digitChar
    from uuidDashes_filter _ hdash]
  rw [if_pos (by rw [List.length_map]; exact hlen)]
  exact uuidParse_chars ds h16

/-- C8 (amended): for every supported scalar column type and every
native value v of that type, converting to the wire representation and
back is the identity — text, integers, big integers, floats, dates,
timestamps and booleans pass through unchanged, a UUID serialized to
its canonical string form parses back to an equal UUID, and an
enumeration member serialized by its underlying value parses back to
the same member *provided the enumeration's underlying values are
strings* (with distinct values, as Python canonical members have); an
enum member with a non-string underlying value fails to decode instead
(see the counterexample). -/
theorem c8_round_trip (t : CType) (v : PyVal)
    (hnat : isNativeVal t v = true)
    (hstr : enumValuesAreStrings t = true)
    (hnd : (enumMemberVals t).Nodup) :
    ctypeParseFromDb t (ctypeParseToDb t (some v)) = .ok (some v) := by
  cases t with
  | tString => cases v <;> first | rfl | simp [isNativeVal] at hnat
  | tInteger => cases v <;> first | rfl | simp [isNativeVal] at hnat
  | tBigInteger => cases v <;> first | rfl | simp [isNativeVal] at hnat
  | tFloat => cases v <;> first | rfl | simp [isNativeVal] at hnat
  | tDate => cases v <;> first | rfl | simp [isNativeVal] at hnat
  | tDateTime => cases v <;> first | rfl | simp [isNativeVal] at hnat
  | tBoolean => cases v <;> first | rfl | simp [isNativeVal] at hnat
  | tUUID =>
    cases v with
    | vuuid ds =>
      simp only [isNativeVal, Bool.and_eq_true, beq_iff_eq, List.all_eq_true,
        decide_eq_true_eq] at hnat
      show ctypeParseFromDb .tUUID (some (.vstr (uuidStr ds))) = .ok (some (.vuuid ds))
      show (if pyTypeMatches .tUUID (.vstr (uuidStr ds))
        then Except.ok (some (PyVal.vstr (uuidStr ds)))
        else (pyConvert .tUUID (.vstr (uuidStr ds))).map some) = _
      rw [if_neg (by simp [pyTypeMatches])]
      show (match uuidParse (uuidStr ds) with
        | some ds2 => Except.ok (PyVal.vuuid ds2)
        | none => Except.error "ValueError: badly formed hexadecimal UUID string").map
          some = _
      rw [uuidParse_round ds hnat.1 hnat.2]
      rfl
    | vint n => simp [isNativeVal] at hnat
    | vstr s => simp [isNativeVal] at hnat
    | vbool b => simp [isNativeVal] at hnat
    | vfloat c => simp [isNativeVal] at hnat
    | vdate y m d => simp [isNativeVal] at hnat
    | vdatetime k => simp [isNativeVal] at hnat
    | vmember e n p => simp [isNativeVal] at hnat
  | tEnum ename ms =>
    cases v with
    | vmember e2 n p =>
      simp only [isNativeVal, Bool.and_eq_true, beq_iff_eq] at hnat
      obtain ⟨he, hmemc⟩ := hnat
      subst he
      have hmem : (n, p) ∈ ms := List.elem_iff.mp hmemc
      simp only [enumValuesAreStrings, List.all_eq_true] at hstr
      obtain ⟨s, hs⟩ : ∃ s, p = .pstr s := by
        have := hstr (n, p) hmem
        cases p with
        | pstr s => exact ⟨s, rfl⟩
        | pint k => simp at this
        | pbool b => simp at this
      subst hs
      show ctypeParseFromDb (.tEnum ename ms) (some (.vstr s)) =
        .ok (some (.vmember ename n (.pstr s)))
      show (match ms.find? (fun m => pyEq m.2.toVal (.vstr s)) with
        | some m => Except.ok (some (PyVal.vmember ename m.1 m.2))
        | none => Except.error "ValueError: not a valid member") = _
      rw [enum_find_member ms n s hmem hnd]
    | vint n => simp [isNativeVal] at hnat
    | vstr s => simp [isNativeVal] at hnat
    | vbool b => simp [isNativeVal] at hnat
    | vfloat c => simp [isNativeVal] at hnat
    | vdate y m d => simp [isNativeVal] at hnat
    | vdatetime k => simp [isNativeVal] at hnat
    | vuuid ds => simp [isNativeVal] at hnat

/-- Witness for C8 at the concrete UUID whose digits are 31 zeros and
a 10 (canonical text 00000000-0000-0000-0000-00000000000a), and at the
string-valued enum `TestEnum` the repository's test models use. -/
theorem c8_round_trip_witness :
    (isNativeVal .tUUID (.vuuid (List.replicate 31 0 ++ [10])) = true ∧
     ctypeParseFromDb .tUUID
       (ctypeParseToDb .tUUID (some (.vuuid (List.replicate 31 0 ++ [10])))) =
       .ok (some (.vuuid (List.replicate 31 0 ++ [10])))) ∧
    (isNativeVal strEnumT (.vmember "TestEnum" "ABC" (.pstr "ABC")) = true ∧
     ctypeParseFromDb strEnumT
       (ctypeParseToDb strEnumT (some (.vmember "TestEnum" "ABC" (.pstr "ABC")))) =
       .ok (some (.vmember "TestEnum" "ABC" (.pstr "ABC")))) :=
  ⟨⟨by decide, c8_round_trip .tUUID (.vuuid (List.replicate 31 0 ++ [10]))
      (by decide) (by decide) (by decide)⟩,
   ⟨by decide, c8_round_trip strEnumT (.vmember "TestEnum" "ABC" (.pstr "ABC"))
      (by decide) (by decide) (by decide)⟩⟩

/-- Counterexample to C8 as stated: the member A (underlying value 1)
of an integer-valued enumeration is a native value of its column type,
but serializing it to the wire (yielding 1) and parsing back raises a
TypeError instead of returning the member. -/
theorem c8_counterexample :
    isNativeVal intEnumT intEnumMember = true ∧
    ctypeParseFromDb intEnumT (ctypeParseToDb intEnumT (some intEnumMember)) =
      .error "TypeError: invalid type for column type ENUM" :=
  ⟨by decide, rfl⟩

theorem registerAll_stable (l : List (String × Nat)) :
    ∀ (r : RegistryM) (n : String) (a : Nat), lookupA r n = some a →
    lookupA (registerAll r l) n = some a := by
  induction l with
  | nil => intro r n a h; exact h
  | cons p rest ih =>
    intro r n a h
    show lookupA (registerAll (registerSt r p.1 p.2).1 rest) n = some a
    apply ih
    unfold registerSt
    cases hl : lookupA r p.1 with
    | some cur =>
      dsimp only
      by_cases hc : cur ≠ p.2
      · rw [if_pos hc]; exact h
      · rw [if_neg hc]; exact h
    | none =>
      show lookupA (r ++ [(p.1, p.2)]) n = some a
      exact lookupA_append_some r _ n a h

theorem registerAll_first (l : List (String × Nat)) :
    ∀ (r : RegistryM) (n : String), lookupA r n = none →
    lookupA (registerAll r l) n = (l.find? (fun p => p.1 == n)).map Prod.snd := by
  induction l with
  | nil => intro r n h; exact h
  | cons p rest ih =>
    intro r n h
    show lookupA (registerAll (registerSt r p.1 p.2).1 rest) n = _
    by_cases hp : p.1 = n
    · subst hp
      have hreg : (registerSt r p.1 p.2).1 = r ++ [(p.1, p.2)] := by
        unfold registerSt
        rw [h]
      rw [hreg]
      have hbound : lookupA (r ++ [(p.1, p.2)]) p.1 = some p.2 := by
        rw [lookupA_append_none r _ _ h]
        simp [lookupA]
      rw [registerAll_stable rest _ _ _ hbound]
      rw [List.find?_cons_of_pos _ (by simp)]
      rfl
    · have hnone : lookupA (registerSt r p.1 p.2).1 n = none := by
        unfold registerSt
        cases hl : lookupA r p.1 with
        | some cur =>
          dsimp only
          by_cases hc : cur ≠ p.2
          · rw [if_pos hc]; exact h
          · rw [if_neg hc]; exact h
        | none =>
          show lookupA (r ++ [(p.1, p.2)]) n = none
          rw [lookupA_append_none r _ _ h]
          simp [lookupA, hp]
      rw [ih _ n hnone]
      rw [List.find?_cons_of_neg _ (by simp [hp])]

/-- C9: registering a second, different class under an already-taken
table name raises and leaves the registry map untouched; re-registering
the identical class is an accepted no-op; and over any sequence of
registrations (conflicts caught and skipped), the first registration
for a name wins — the final binding of a previously unbound name is the
first entry for it in the sequence. -/
theorem c9_registry (r : RegistryM) (n : String) (a b : Nat) (l : List (String × Nat))
    (hconf : lookupA r n = some a) :
    (a ≠ b → registerSt r n b =
      (r, some "ValueError: Multiple models found for model name")) ∧
    (registerSt r n a = (r, none)) ∧
    (∀ (r2 : RegistryM), lookupA r2 n = none →
      lookupA (registerAll r2 l) n = (l.find? (fun p => p.1 == n)).map Prod.snd) := by
  refine ⟨?_, ?_, ?_⟩
  · intro hne
    unfold registerSt
    rw [hconf]
    dsimp only
    rw [if_pos hne]
  · unfold registerSt
    rw [hconf]
    dsimp only
    rw [if_neg (by simp)]
  · intro r2 h2
    exact registerAll_first l r2 n h2

/-- Witness for C9: with "t" bound to class 1, registering class 2
under "t" errors leaving the map unchanged, re-registering class 1 is a
no-op, and running the sequence [("t",1),("t",2),("u",3)] on an empty
registry binds "t" to the first-registered class 1. -/
theorem c9_registry_witness :
    ((1 : Nat) ≠ 2 → registerSt [("t", 1)] "t" 2 =
      ([("t", 1)], some "ValueError: Multiple models found for model name")) ∧
    (registerSt [("t", 1)] "t" 1 = ([("t", 1)], none)) ∧
    (∀ (r2 : RegistryM), lookupA r2 "t" = none →
      lookupA (registerAll r2 [("t", 1), ("t", 2), ("u", 3)]) "t" =
        ([("t", 1), ("t", 2), ("u", 3)].find? (fun p => p.1 == "t")).map Prod.snd) :=
  c9_registry [("t", 1)] "t" 1 2 [("t", 1), ("t", 2), ("u", 3)] rfl

theorem colGetValue_changed (b : Bool) (c : PCol) :
    ((colGetValue b c).2).changed = c.changed ∧
    ((colGetValue b c).2).value_set = c.value_set := by
  unfold colGetValue
  cases c.value with
  | some v => exact ⟨rfl, rfl⟩
  | none =>
    cases b with
    | false => exact ⟨rfl, rfl⟩
    | true =>
      cases c.dflt with
      | some d => exact ⟨rfl, rfl⟩
      | none => exact ⟨rfl, rfl⟩

/-- C10 (amended): materializing a configured default through
`Column.get_value(apply_default=True)` — as `Session.add` does via
`set_defaults` for objects not yet persisted — stores the produced
value but leaves both the dirty flag and the explicit-set flag exactly
as they were; only `set_value` (on a genuinely different value) raises
them; `set_defaults` therefore changes no column's dirty flag, and
every entry of a built UPDATE's SET list stems from a column that is
either dirty or carries an `on_update` producer — so a column whose
value came solely from its default producer contributes an entry only
when it also carries an `on_update` producer (see the counterexample),
never through the dirty-tracking path. -/
theorem c10_default_not_dirty (c : PCol) (d : PyVal) (m : EModel) (out : UpdOut)
    (hval : c.value = none) (hd : c.dflt = some d)
    (hb : buildUpdate m = some out) :
    ((colGetValue true c).1 = some d ∧
     (colGetValue true c).2.value = some d ∧
     (colGetValue true c).2.changed = c.changed ∧
     (colGetValue true c).2.value_set = c.value_set) ∧
    (∀ v, pyEqOpt v (colGetValue false c).1 = false →
      (colSetValue v c).changed = true ∧ (colSetValue v c).value_set = true) ∧
    ((setDefaultsM m).columns.map (fun x => x.changed) =
      m.columns.map (fun x => x.changed)) ∧
    (∀ nm ∈ out.sets.map Prod.fst, ∃ x ∈ m.columns, x.name = nm ∧
      (x.changed = true ∨ x.on_update.isSome = true)) := by
  refine ⟨?_, ?_, ?_, ?_⟩
  · unfold colGetValue
    rw [hval, hd]
    exact ⟨rfl, rfl, rfl, rfl⟩
  · intro v hv
    unfold colSetValue
    rw [hv]
    exact ⟨rfl, rfl⟩
  · unfold setDefaultsM
    rw [List.map_map]
    apply List.map_congr_left
    intro x _
    exact (colGetValue_changed true x).1
  · intro nm hnm
    have hsets : out.sets =
        (m.columns.filter (fun x => x.changed)).map
          (fun x => (x.name, (colParseToDb false x).1)) ++
        (m.columns.filter (fun x => !x.changed && x.on_update.isSome)).map
          (fun x => (x.name, x.on_update)) := by
      unfold buildUpdate at hb
      rw [if_neg (by unfold getUpdatePrimaryKeys; rw [List.length_map]; omega)] at hb
      rw [getColumnUpdates_eq m] at hb
      by_cases hz : ((m.columns.filter (fun x => x.changed)).map
          (fun x => (x.name, (colParseToDb false x).1))).length = 0
      · rw [if_pos hz] at hb
        exact absurd hb (by simp)
      · rw [if_neg hz] at hb
        have := Option.some.inj hb
        rw [← this]
        rfl
    rw [hsets] at hnm
    rw [List.map_append, List.mem_append] at hnm
    rcases hnm with h | h
    · rw [List.map_map] at h
      obtain ⟨x, hx, hxe⟩ := List.mem_map.mp h
      refine ⟨x, List.mem_of_mem_filter hx, hxe, Or.inl ?_⟩
      have := List.of_mem_filter hx
      simpa using this
    · rw [List.map_map] at h
      obtain ⟨x, hx, hxe⟩ := List.mem_map.mp h
      refine ⟨x, List.mem_of_mem_filter hx, hxe, Or.inr ?_⟩
      have := List.of_mem_filter hx
      simp only [Bool.and_eq_true] at this
      exact this.2

/-- Witness for C10: the column "x" of `m10` (unset value, default 7)
materializes 7 without raising its flags, `set_defaults` on `m10`
preserves every dirty flag, and each SET entry of the UPDATE built for
`m10` stems from a dirty or `on_update`-bearing column. -/
theorem c10_default_not_dirty_witness :
    (((colGetValue true c10col).1 = some (.vint 7) ∧
      (colGetValue true c10col).2.value = some (.vint 7) ∧
      (colGetValue true c10col).2.changed = c10col.changed ∧
      (colGetValue true c10col).2.value_set = c10col.value_set) ∧
     (∀ v, pyEqOpt v (colGetValue false c10col).1 = false →
      (colSetValue v c10col).changed = true ∧
      (colSetValue v c10col).value_set = true) ∧
     ((setDefaultsM m10).columns.map (fun x => x.changed) =
       m10.columns.map (fun x => x.changed)) ∧
     (∀ nm ∈ c10out.sets.map Prod.fst,
       ∃ x ∈ m10.columns, x.name = nm ∧
         (x.changed = true ∨ x.on_update.isSome = true))) :=
  c10_default_not_dirty c10col (.vint 7) m10 c10out rfl rfl (by decide)

/-- Counterexample to C10 as stated: after `set_defaults`, the column
"x" of `m10` holds 7 solely from its default producer and is not dirty,
yet the built UPDATE's SET list contains an entry for "x" — contributed
by its `on_update` producer, not by dirtiness. -/
theorem c10_counterexample :
    ((setDefaultsM m10).columns.map (fun c => (c.name, c.value, c.changed))) =
      [("id", some (.vint 1), false), ("y", some (.vstr "dirty"), true),
        ("x", some (.vint 7), false)] ∧
    (buildUpdate (setDefaultsM m10)).map (fun r => r.sets.map Prod.fst) =
      some ["y", "x"] :=
  ⟨by decide, by decide⟩
